import Mathlib

/-!
Verification of the kitchen-explorer restaurant simulation (src/main.cpp).

The program is a flecs ECS application: entities (tables, chefs, waiters,
plates, guests) carry status tags, scalar components and relation pairs, and
twelve systems run in declaration order once per tick.  This file gives a
shallow embedding: each entity kind becomes a record, the world a record of
entity lists, and each system a function on worlds.  C floats are modelled
as rationals; libc sqrt is modelled by a rational square root that is exact
on the inputs the development evaluates it at (see ratSqrt).
-/

namespace KitchenExplorer

set_option maxRecDepth 40000

/-- Tunable constants of the program (file-scope consts in main.cpp).  The
source fixes one value for each; they are collected in a record so that the
spec's scenario configurations can be stated as well. -/
structure Config where
  TableXCount : Nat
  TableYCount : Nat
  TableSpacing : ℚ
  ChefCount : Nat
  WaiterCount : Nat
  GuestFrequency : ℚ
  GuestPartySize : Nat
  PlatePreparationTime : ℚ
  WaiterSpeed : ℚ
  DiningTime : ℚ
  PlateInitialTemperature : ℚ
  PlateCooldownFactor : ℚ
  PlateTemperatureThreshold : ℚ
  ColdPlateHappinessPenalty : ℚ
  RoomTemperature : ℚ
  HappinessCooldown : ℚ
deriving DecidableEq, Repr

/-- The constant values declared at the top of main.cpp. -/
def defaultConfig : Config where
  TableXCount := 6
  TableYCount := 4
  TableSpacing := 5
  ChefCount := 10
  WaiterCount := 4
  GuestFrequency := 5
  GuestPartySize := 5
  PlatePreparationTime := 8
  WaiterSpeed := 1
  DiningTime := 60
  PlateInitialTemperature := 80
  PlateCooldownFactor := 1/100
  PlateTemperatureThreshold := 55
  ColdPlateHappinessPenalty := 1/4
  RoomTemperature := 20
  HappinessCooldown := 1/100

inductive PlateStatus where
  | Preparing
  | Ready
  | InUse
deriving DecidableEq, Repr

inductive TableStatus where
  | Unoccupied
  | Unassigned
  | Waiting
  | Dining
deriving DecidableEq, Repr

inductive ChefStatus where
  | Idle
  | Cooking
deriving DecidableEq, Repr

inductive WaiterStatus where
  | Idle
  | WalkingToTable
  | WalkingToKitchen
deriving DecidableEq, Repr

/-- ProgressTracker component: cur accumulates elapsed time, expire is the
threshold gating a transition. -/
structure ProgressTracker where
  cur : ℚ
  expire : ℚ
deriving DecidableEq, Repr

/-- A Table entity: status tag, Position component, optional Happiness and
ProgressTracker components, and an optional Plate relation pair (added when a
plate is delivered). -/
structure Table where
  id : Nat
  status : TableStatus
  pos : ℚ × ℚ
  happiness : Option ℚ
  timer : Option ProgressTracker
  plate : Option Nat
deriving DecidableEq, Repr

/-- A Chef entity: status tag, optional Table and Plate relation pairs, and
an optional ProgressTracker. -/
structure Chef where
  id : Nat
  status : ChefStatus
  table : Option Nat
  plate : Option Nat
  timer : Option ProgressTracker
deriving DecidableEq, Repr

/-- A Waiter entity: status tag, DistanceFromKitchen component (always
present, set at creation), optional Table and Plate relation pairs, and an
optional ProgressTracker. -/
structure Waiter where
  id : Nat
  status : WaiterStatus
  dist : ℚ
  table : Option Nat
  plate : Option Nat
  timer : Option ProgressTracker
deriving DecidableEq, Repr

/-- A Plate entity: status tag, optional Table and Waiter relation pairs,
and an optional Temperature component (set when the plate becomes Ready). -/
structure Plate where
  id : Nat
  status : PlateStatus
  table : Option Nat
  waiter : Option Nat
  temp : Option ℚ
deriving DecidableEq, Repr

/-- A Guest entity: a child of exactly one table. -/
structure Guest where
  id : Nat
  table : Nat
deriving DecidableEq, Repr

/-- The simulation state: the entity store plus scheduler-internal state.
genAcc is the accumulator of the demand generator's interval timer
(modelled from the spec; the flecs tick source is external to the repo),
rng is the stream of libc rand() draws still to be consumed, and nextId
supplies fresh entity identifiers. -/
structure World where
  tables : List Table
  chefs : List Chef
  waiters : List Waiter
  plates : List Plate
  guests : List Guest
  genAcc : ℚ
  rng : List Nat
  nextId : Nat
deriving DecidableEq, Repr

/-- Rational model of C sqrt from math.h: square roots of numerator and
denominator.  Exact whenever both are perfect squares — in particular
ratSqrt 0 = 0, the only value any theorem below evaluates it at (the
distance of a table located at the origin). -/
def ratSqrt (q : ℚ) : ℚ :=
  (Nat.sqrt q.num.toNat : ℚ) / (Nat.sqrt q.den : ℚ)

/-- Number of guest children of the given table (ecs.count of the ChildOf
pair in systems::CreatePlate; guests are the only children tables ever
have). -/
def guestCount (w : World) (table : Option Nat) : Nat :=
  (w.guests.filter (fun g => some g.table = table)).length

namespace systems

/-- systems::IncreaseProgressTracker (main.cpp:141): pt.cur += delta for
every entity holding a ProgressTracker (tables, chefs and waiters are the
only entity kinds that ever carry one). -/
def IncreaseProgressTracker (dt : ℚ) (w : World) : World :=
  { w with
    tables := w.tables.map (fun t =>
      { t with timer := t.timer.map (fun pt => { pt with cur := pt.cur + dt }) }),
    chefs := w.chefs.map (fun c =>
      { c with timer := c.timer.map (fun pt => { pt with cur := pt.cur + dt }) }),
    waiters := w.waiters.map (fun x =>
      { x with timer := x.timer.map (fun pt => { pt with cur := pt.cur + dt }) }) }

/-- Body of systems::GuestGenerator (main.cpp:147): the filter over
Unoccupied tables overwrites its capture on every match, so the table used
is the last one in store order; if one exists it becomes Unassigned, its
happiness is set to 1 and party-size guest children are created, where
party size is 1 + rand() % GuestPartySize. -/
def spawnParty (cfg : Config) (w : World) : World :=
  match (w.tables.filter (fun t => t.status = TableStatus.Unoccupied)).getLast? with
  | none => w
  | some t =>
    let party := 1 + (w.rng.headD 0) % cfg.GuestPartySize
    { w with
      tables := w.tables.map (fun t2 =>
        if t2.id = t.id then { t2 with status := TableStatus.Unassigned, happiness := some 1 } else t2),
      guests := w.guests ++ (List.range party).map (fun i => { id := w.nextId + i, table := t.id }),
      rng := w.rng.tail,
      nextId := w.nextId + party }

/-- systems::GuestGenerator with its interval gate.  Modelled from the spec:
the .interval(GuestFrequency) tick source is implemented by flecs, outside
this repository; per the spec the system "runs on a fixed interval (not
every tick)", modelled as an accumulator that fires and resets when it
reaches the interval. -/
def GuestGenerator (cfg : Config) (dt : ℚ) (w : World) : World :=
  if cfg.GuestFrequency ≤ w.genAcc + dt then
    { spawnParty cfg w with genAcc := 0 }
  else
    { w with genAcc := w.genAcc + dt }

/-- The idle-chef filter of systems::AssignChef: the .each callback
overwrites its capture, so the chef used is the last Idle chef in store
order. -/
def findIdleChef (cs : List Chef) : Option Chef :=
  (cs.filter (fun c => c.status = ChefStatus.Idle)).getLast?

/-- One iteration of the loop body of systems::AssignChef (main.cpp:186):
re-run the idle-chef filter against the current (unstaged) world; if a chef
is found, give it the table relation, mark it Cooking and mark the table
Waiting. -/
def assignChefStep (w : World) (t : Table) : World :=
  match findIdleChef w.chefs with
  | none => w
  | some c =>
    { w with
      chefs := w.chefs.map (fun y =>
        if y.id = c.id then { y with table := some t.id, status := ChefStatus.Cooking } else y),
      tables := w.tables.map (fun y =>
        if y.id = t.id then { y with status := TableStatus.Waiting } else y) }

/-- systems::AssignChef (main.cpp:174): iterate the snapshot of Unassigned
tables; the system runs with no_staging and an explicit defer_end, so each
assignment is visible to the idle-chef filter of the later iterations of
the same pass. -/
def AssignChef (w : World) : World :=
  (w.tables.filter (fun t => t.status = TableStatus.Unassigned)).foldl assignChefStep w

/-- One iteration of systems::CreatePlate (main.cpp:207) over the
accumulator (chefs so far, plates created so far, next fresh id): a Cooking
chef without a Plate pair gets a fresh Preparing plate and a progress
tracker with expiry (number of guest children of its table) *
PlatePreparationTime. -/
def createPlateStep (cfg : Config) (w : World) (acc : List Chef × List Plate × Nat) (c : Chef) :
    List Chef × List Plate × Nat :=
  if c.status = ChefStatus.Cooking ∧ c.plate = none then
    let party := guestCount w c.table
    (acc.1 ++ [{ c with
        plate := some acc.2.2,
        timer := some { cur := 0, expire := (party : ℚ) * cfg.PlatePreparationTime } }],
     acc.2.1 ++ [{ id := acc.2.2, status := PlateStatus.Preparing,
                   table := none, waiter := none, temp := none }],
     acc.2.2 + 1)
  else
    (acc.1 ++ [c], acc.2.1, acc.2.2)

/-- systems::CreatePlate (main.cpp:207): for every Cooking chef with no
Plate pair, create a plate (status Preparing) in the plates scope, attach
it to the chef and initialize the chef's progress tracker. -/
def CreatePlate (cfg : Config) (w : World) : World :=
  let r := w.chefs.foldl (createPlateStep cfg w) ([], [], w.nextId)
  { w with chefs := r.1, plates := w.plates ++ r.2.1, nextId := r.2.2 }

/-- One iteration of systems::PreparePlate (main.cpp:233) for the snapshot
chef c: when its tracker has passed its expiry (strict comparison pt.cur >
pt.expire in the source), the plate receives the chef's table relation,
becomes Ready with the initial temperature, and the chef is released to
Idle with table, plate and tracker removed. -/
def preparePlateStep (cfg : Config) (w : World) (c : Chef) : World :=
  match c.timer, c.plate with
  | some pt, some pid =>
    if pt.expire < pt.cur then
      { w with
        chefs := w.chefs.map (fun y =>
          if y.id = c.id then
            { y with status := ChefStatus.Idle, table := none, plate := none, timer := none }
          else y),
        plates := w.plates.map (fun q =>
          if q.id = pid then
            { q with table := c.table, status := PlateStatus.Ready,
                     temp := some cfg.PlateInitialTemperature }
          else q) }
    else w
  | _, _ => w

/-- systems::PreparePlate (main.cpp:233): matches chefs holding both a
ProgressTracker and a Plate pair (no status term in the query). -/
def PreparePlate (cfg : Config) (w : World) : World :=
  (w.chefs.filter (fun c => c.timer ≠ none ∧ c.plate ≠ none)).foldl (preparePlateStep cfg) w

/-- The idle-waiter filter of systems::AssignWaiter: the .each callback
overwrites its capture, so the waiter used is the last Idle waiter in store
order. -/
def findIdleWaiter (ws : List Waiter) : Option Waiter :=
  (ws.filter (fun x => x.status = WaiterStatus.Idle)).getLast?

/-- One iteration of the loop body of systems::AssignWaiter (main.cpp:271):
re-run the idle-waiter filter against the current (unstaged) world; if a
waiter is found it receives the plate's table relation and status
WalkingToKitchen, and the plate records the waiter. -/
def assignWaiterStep (w : World) (p : Plate) : World :=
  match findIdleWaiter w.waiters with
  | none => w
  | some x =>
    { w with
      waiters := w.waiters.map (fun y =>
        if y.id = x.id then { y with table := p.table, status := WaiterStatus.WalkingToKitchen } else y),
      plates := w.plates.map (fun q =>
        if q.id = p.id then { q with waiter := some x.id } else q) }

/-- systems::AssignWaiter (main.cpp:257): iterate the snapshot of Ready
plates that have a Table pair and no Waiter pair; runs with no_staging and
defer_end like AssignChef. -/
def AssignWaiter (w : World) : World :=
  (w.plates.filter (fun p =>
      p.status = PlateStatus.Ready ∧ p.table ≠ none ∧ p.waiter = none)).foldl assignWaiterStep w

/-- systems::HappinessCooldown (main.cpp:295): every table with a Happiness
component that is not Dining loses HappinessCooldown * delta of happiness,
clamped at zero. -/
def HappinessCooldown (cfg : Config) (dt : ℚ) (w : World) : World :=
  { w with
    tables := w.tables.map (fun t =>
      if t.status ≠ TableStatus.Dining then
        { t with happiness := t.happiness.map (fun h =>
            let h2 := h - cfg.HappinessCooldown * dt
            if h2 < 0 then 0 else h2) }
      else t) }

/-- systems::TemperatureCooldown (main.cpp:306): every plate with a
Temperature component relaxes toward room temperature; the query has no
status term. -/
def TemperatureCooldown (cfg : Config) (dt : ℚ) (w : World) : World :=
  { w with
    plates := w.plates.map (fun p =>
      { p with temp := p.temp.map (fun t =>
          t - (t - cfg.RoomTemperature) * cfg.PlateCooldownFactor * dt) }) }

/-- The plate lookup of systems::WaiterToKitchen (main.cpp:328): filter
plates holding a Table pair targeting the waiter's table; the .each
callback overwrites its capture, so the plate used is the last match in
store order.  A waiter with no table relation yields the null entity as
filter target, which matches nothing. -/
def findPlateForTable (w : World) (table : Option Nat) : Option Plate :=
  match table with
  | none => none
  | some tid => (w.plates.filter (fun p => p.table = some tid)).getLast?

/-- systems::WaiterToKitchen (main.cpp:315): each WalkingToKitchen waiter
walks WaiterSpeed * delta toward the kitchen; on reaching (or passing)
zero the distance is clamped to 0 and, if a plate for the waiter's table
is located, the waiter picks it up, turns WalkingToTable, and starts a
tracker whose expiry is the table's Euclidean distance from the origin
divided by WaiterSpeed. -/
def WaiterToKitchen (cfg : Config) (dt : ℚ) (w : World) : World :=
  { w with
    waiters := w.waiters.map (fun x =>
      if x.status = WaiterStatus.WalkingToKitchen then
        let d := x.dist - cfg.WaiterSpeed * dt
        if d ≤ 0 then
          match findPlateForTable w x.table,
                x.table.bind (fun tid => (w.tables.filter (fun t => t.id = tid)).getLast?) with
          | some p, some t =>
            { x with dist := 0, status := WaiterStatus.WalkingToTable, plate := some p.id,
                     timer := some ⟨0, ratSqrt (t.pos.1 * t.pos.1 + t.pos.2 * t.pos.2) / cfg.WaiterSpeed⟩ }
          | _, _ => { x with dist := 0 }
        else { x with dist := d }
      else x) }

/-- One iteration of systems::WaiterToTable (main.cpp:351) for the snapshot
waiter x: the distance grows by delta * WaiterSpeed every tick; when the
tracker has reached its expiry (pt.cur >= pt.expire in the source) the
plate is transferred to the table, the waiter is released to Idle (its
tracker is NOT removed and its distance keeps the value just accumulated),
the plate becomes InUse, the table becomes Dining with a DiningTime
tracker, and a cold plate (temperature below the threshold) costs the
table ColdPlateHappinessPenalty happiness, clamped at zero. -/
def waiterToTableStep (cfg : Config) (dt : ℚ) (w : World) (x : Waiter) : World :=
  let d := x.dist + dt * cfg.WaiterSpeed
  match x.timer with
  | none => w
  | some pt =>
    if pt.expire ≤ pt.cur then
      match x.table, x.plate with
      | some tid, some pid =>
        match (w.tables.filter (fun t => t.id = tid)).getLast?,
              (w.plates.filter (fun p => p.id = pid)).getLast? with
        | some _, some p =>
          { w with
            waiters := w.waiters.map (fun y =>
              if y.id = x.id then
                { y with dist := d, table := none, plate := none, status := WaiterStatus.Idle }
              else y),
            plates := w.plates.map (fun q =>
              if q.id = pid then { q with status := PlateStatus.InUse, waiter := none } else q),
            tables := w.tables.map (fun t =>
              if t.id = tid then
                let t2 := { t with plate := some pid, status := TableStatus.Dining,
                                   timer := some { cur := 0, expire := cfg.DiningTime } }
                match p.temp with
                | some tv =>
                  if tv < cfg.PlateTemperatureThreshold then
                    { t2 with happiness := t2.happiness.map (fun h =>
                        let h2 := h - cfg.ColdPlateHappinessPenalty
                        if h2 < 0 then 0 else h2) }
                  else t2
                | none => t2
              else t) }
        | _, _ =>
          { w with waiters := w.waiters.map (fun y =>
              if y.id = x.id then { y with dist := d } else y) }
      | _, _ =>
        { w with waiters := w.waiters.map (fun y =>
            if y.id = x.id then { y with dist := d } else y) }
    else
      { w with waiters := w.waiters.map (fun y =>
          if y.id = x.id then { y with dist := d } else y) }

/-- systems::WaiterToTable (main.cpp:351): matches waiters holding a
ProgressTracker with status WalkingToTable. -/
def WaiterToTable (cfg : Config) (dt : ℚ) (w : World) : World :=
  (w.waiters.filter (fun x => x.status = WaiterStatus.WalkingToTable ∧ x.timer ≠ none)).foldl
    (waiterToTableStep cfg dt) w

/-- Expiry test shared by the two Dining-table systems (pt.cur >= pt.expire
in the source). -/
def timerExpired : Option ProgressTracker → Bool
  | some pt => pt.expire ≤ pt.cur
  | none => false

/-- systems::GuestsLeaving (main.cpp:383): for every Dining table whose
tracker has expired, delete all its children (the guests) and remove its
Happiness component. -/
def GuestsLeaving (w : World) : World :=
  let expired := (w.tables.filter (fun t =>
      t.status = TableStatus.Dining ∧ timerExpired t.timer)).map (fun t => t.id)
  { w with
    tables := w.tables.map (fun t =>
      if t.status = TableStatus.Dining ∧ timerExpired t.timer then
        { t with happiness := none }
      else t),
    guests := w.guests.filter (fun g => ¬ g.table ∈ expired) }

/-- systems::Dine (main.cpp:395): for every Dining table whose tracker has
expired, revert the table to Unoccupied, remove its tracker, and destroy
its plate.  Destroying the plate also clears (flecs cleanup of pairs
targeting a destroyed entity) any Plate relation that pointed to it. -/
def Dine (w : World) : World :=
  let deadPlates := (w.tables.filter (fun t =>
      t.status = TableStatus.Dining ∧ timerExpired t.timer)).filterMap (fun t => t.plate)
  { w with
    tables := w.tables.map (fun t =>
      if t.status = TableStatus.Dining ∧ timerExpired t.timer then
        { t with status := TableStatus.Unoccupied, timer := none, plate := none }
      else
        match t.plate with
        | some pid => if pid ∈ deadPlates then { t with plate := none } else t
        | none => t),
    plates := w.plates.filter (fun p => ¬ p.id ∈ deadPlates),
    chefs := w.chefs.map (fun c =>
      match c.plate with
      | some pid => if pid ∈ deadPlates then { c with plate := none } else c
      | none => c),
    waiters := w.waiters.map (fun x =>
      match x.plate with
      | some pid => if pid ∈ deadPlates then { x with plate := none } else x
      | none => x) }

end systems

/-- Run a list of systems left to right, handing each the configuration and
the tick's delta time. -/
def runSystems (l : List (Config → ℚ → World → World)) (cfg : Config) (dt : ℚ) (w : World) :
    World :=
  l.foldl (fun w f => f cfg dt w) w

/-- The twelve systems in the order they are declared in main.cpp, which is
the order the flecs pipeline runs them in each tick. -/
def sourceOrder : List (Config → ℚ → World → World) :=
  [fun _ dt w => systems.IncreaseProgressTracker dt w,
   systems.GuestGenerator,
   fun _ _ w => systems.AssignChef w,
   fun cfg _ w => systems.CreatePlate cfg w,
   fun cfg _ w => systems.PreparePlate cfg w,
   fun _ _ w => systems.AssignWaiter w,
   systems.HappinessCooldown,
   systems.TemperatureCooldown,
   systems.WaiterToKitchen,
   systems.WaiterToTable,
   fun _ _ w => systems.GuestsLeaving w,
   fun _ _ w => systems.Dine w]

/-- One simulation tick: the twelve systems in declaration order. -/
def tick (cfg : Config) (dt : ℚ) (w : World) : World :=
  runSystems sourceOrder cfg dt w

/-- Modelled from the spec: the per-tick system order the spec claims
(timers, spawn, chef match, cook/prepare, waiter match, locomotion,
dine/leave, then the two decay systems last).  Kept only to compare against
the declaration order of the source. -/
def specClaimedOrder : List (Config → ℚ → World → World) :=
  [fun _ dt w => systems.IncreaseProgressTracker dt w,
   systems.GuestGenerator,
   fun _ _ w => systems.AssignChef w,
   fun cfg _ w => systems.CreatePlate cfg w,
   fun cfg _ w => systems.PreparePlate cfg w,
   fun _ _ w => systems.AssignWaiter w,
   systems.WaiterToKitchen,
   systems.WaiterToTable,
   fun _ _ w => systems.GuestsLeaving w,
   fun _ _ w => systems.Dine w,
   systems.HappinessCooldown,
   systems.TemperatureCooldown]

/-- Run one tick per element of dts, consuming the list left to right. -/
def runTicks (cfg : Config) (dts : List ℚ) (w : World) : World :=
  dts.foldl (fun w d => tick cfg d w) w

/-- The start-up state built in app() (main.cpp:108): a TableXCount x
TableYCount grid of Unoccupied tables (x outer loop, y inner; integer grid
coordinates from -count/2, truncated toward zero as in the C float-to-int
conversion), ChefCount Idle chefs and WaiterCount Idle waiters at distance
0.  rng is the stream of rand() values the run will consume. -/
def init (cfg : Config) (rng : List Nat) : World :=
  let xs := (List.range cfg.TableXCount).map (fun i => (i : Int) - (cfg.TableXCount / 2 : Nat))
  let ys := (List.range cfg.TableYCount).map (fun i => (i : Int) - (cfg.TableYCount / 2 : Nat))
  let grid := xs.flatMap (fun x => ys.map (fun y =>
    ((x : ℚ) * cfg.TableSpacing, (y : ℚ) * cfg.TableSpacing)))
  let nT := grid.length
  { tables := grid.enum.map (fun ip =>
      { id := ip.1, status := TableStatus.Unoccupied, pos := ip.2,
        happiness := none, timer := none, plate := none }),
    chefs := (List.range cfg.ChefCount).map (fun i =>
      { id := nT + i, status := ChefStatus.Idle, table := none, plate := none, timer := none }),
    waiters := (List.range cfg.WaiterCount).map (fun i =>
      { id := nT + cfg.ChefCount + i, status := WaiterStatus.Idle, dist := 0,
        table := none, plate := none, timer := none }),
    plates := [],
    guests := [],
    genAcc := 0,
    rng := rng,
    nextId := nT + cfg.ChefCount + cfg.WaiterCount }

/-- States reachable by the scheduler from some start-up state, stepping
with nonnegative delta times. -/
inductive Reachable (cfg : Config) : World → Prop
  | start (rng : List Nat) : Reachable cfg (init cfg rng)
  | step {w : World} (dt : ℚ) : Reachable cfg w → 0 ≤ dt → Reachable cfg (tick cfg dt w)

/-- The first five systems of the tick (through systems::PreparePlate), the
point of the tick at which a finished plate is observably Ready, before the
waiter-matching and locomotion systems of the same tick run. -/
def tickThroughPrepare (cfg : Config) (dt : ℚ) (w : World) : World :=
  runSystems (sourceOrder.take 5) cfg dt w

/-- Iterate the demand generator alone over a number of scheduling
intervals. -/
def iterGen (cfg : Config) (dt : ℚ) : Nat → World → World
  | 0, w => w
  | n + 1, w => iterGen cfg dt n (systems.GuestGenerator cfg dt w)

/-- Iterate the temperature-cooldown system over a sequence of tick delta
times. -/
def iterTempCooldown (cfg : Config) (dts : List ℚ) (w : World) : World :=
  dts.foldl (fun w d => systems.TemperatureCooldown cfg d w) w

def countIdleChefs (w : World) : Nat :=
  (w.chefs.filter (fun c => c.status = ChefStatus.Idle)).length

def countCookingChefs (w : World) : Nat :=
  (w.chefs.filter (fun c => c.status = ChefStatus.Cooking)).length

def countIdleWaiters (w : World) : Nat :=
  (w.waiters.filter (fun x => x.status = WaiterStatus.Idle)).length

/-- Walking waiters: WalkingToKitchen or WalkingToTable. -/
def countWalkingWaiters (w : World) : Nat :=
  (w.waiters.filter (fun x =>
    x.status = WaiterStatus.WalkingToKitchen ∨ x.status = WaiterStatus.WalkingToTable)).length

def countUnassignedTables (w : World) : Nat :=
  (w.tables.filter (fun t => t.status = TableStatus.Unassigned)).length

def countWaitingTables (w : World) : Nat :=
  (w.tables.filter (fun t => t.status = TableStatus.Waiting)).length

/-- A function on worlds keeps the idle + cooking chef total and the idle +
walking waiter total unchanged. -/
def PreservesStaffCounts (f : World → World) : Prop :=
  ∀ w : World,
    countIdleChefs (f w) + countCookingChefs (f w) = countIdleChefs w + countCookingChefs w ∧
    countIdleWaiters (f w) + countWalkingWaiters (f w) = countIdleWaiters w + countWalkingWaiters w

/-- Every Happiness value in the world lies in the unit interval. -/
def HappyInv (w : World) : Prop :=
  ∀ t ∈ w.tables, ∀ h : ℚ, t.happiness = some h → 0 ≤ h ∧ h ≤ 1

/-- Every waiter's distance from the kitchen is nonnegative. -/
def DistInv (w : World) : Prop :=
  ∀ x ∈ w.waiters, 0 ≤ x.dist

/-- A tracker strictly past its expiry, the firing test of
systems::PreparePlate (pt.cur > pt.expire). -/
def timerPastExpiry : Option ProgressTracker → Bool
  | some pt => pt.expire < pt.cur
  | none => false

/-- A state with no pending time-independent work: the generator interval
has not been reached, no matchable chef/table or waiter/plate pair is
waiting, no plate creation is due, no expired tracker is waiting to fire,
no walking waiter has already arrived at the kitchen, and happiness values
are nonnegative (entity identifiers are unique, as the store guarantees).
On such states, and only on such states, a zero-delta tick is a no-op. -/
def Quiescent (cfg : Config) (w : World) : Prop :=
  (w.waiters.map Waiter.id).Nodup ∧
  w.genAcc < cfg.GuestFrequency ∧
  ((∀ t ∈ w.tables, t.status ≠ TableStatus.Unassigned) ∨
    (∀ c ∈ w.chefs, c.status ≠ ChefStatus.Idle)) ∧
  (∀ c ∈ w.chefs, ¬(c.status = ChefStatus.Cooking ∧ c.plate = none)) ∧
  (∀ c ∈ w.chefs, timerPastExpiry c.timer = false) ∧
  ((∀ p ∈ w.plates,
      ¬(p.status = PlateStatus.Ready ∧ p.table ≠ none ∧ p.waiter = none)) ∨
    (∀ x ∈ w.waiters, x.status ≠ WaiterStatus.Idle)) ∧
  (∀ t ∈ w.tables, 0 ≤ t.happiness.getD 0) ∧
  (∀ x ∈ w.waiters, x.status = WaiterStatus.WalkingToKitchen → 0 < x.dist) ∧
  (∀ x ∈ w.waiters, x.status = WaiterStatus.WalkingToTable →
    systems.timerExpired x.timer = false) ∧
  (∀ t ∈ w.tables, t.status = TableStatus.Dining → systems.timerExpired t.timer = false)

instance decQuiescent (cfg : Config) (w : World) : Decidable (Quiescent cfg w) := by
  unfold Quiescent
  infer_instance

/-- Status of the plate with the given id, if it exists. -/
def plateStatusOf (w : World) (pid : Nat) : Option PlateStatus :=
  (w.plates.find? (fun p => p.id = pid)).map (fun p => p.status)

/-- Status of the chef with the given id, if it exists. -/
def chefStatusOf (w : World) (cid : Nat) : Option ChefStatus :=
  (w.chefs.find? (fun c => c.id = cid)).map (fun c => c.status)

/-- Scenario configuration for claim C4's counterexample: two tables, one
chef, one waiter, party size one (the other tunables keep their source
values). -/
def cfgC4 : Config :=
  { defaultConfig with TableXCount := 2, TableYCount := 1, ChefCount := 1,
                       WaiterCount := 1, GuestPartySize := 1 }

/-- A state of cfgC4 reached after three 5-second ticks: the third tick
frees the chef (its plate was delivered) while a second party is already
seated at an Unassigned table, so a chef/table match is pending. -/
def wC4 : World :=
  tick cfgC4 5 (tick cfgC4 5 (tick cfgC4 5 (init cfgC4 [0, 0, 0, 0])))

/-- Scenario A configuration (spec section 8): one table, one chef, one
waiter, party size fixed at 1, preparation time 8 s, the single table at
the origin, i.e. at distance 0 from the kitchen. -/
def cfgA : Config :=
  { defaultConfig with TableXCount := 1, TableYCount := 1, ChefCount := 1,
                       WaiterCount := 1, GuestPartySize := 1 }

/-- Scenario A start state: the party of one is seated (table 0 Waiting,
one guest), the chef has just started cooking (tracker 0 of 8 s, plate 3
Preparing attached) and the waiter is idle at the kitchen. -/
def wA : World :=
  { tables := [{ id := 0, status := TableStatus.Waiting, pos := (0, 0),
                 happiness := some 1, timer := none, plate := none }],
    chefs := [{ id := 1, status := ChefStatus.Cooking, table := some 0,
                plate := some 3, timer := some ⟨0, 8⟩ }],
    waiters := [{ id := 2, status := WaiterStatus.Idle, dist := 0,
                  table := none, plate := none, timer := none }],
    plates := [{ id := 3, status := PlateStatus.Preparing, table := none,
                 waiter := none, temp := none }],
    guests := [{ id := 4, table := 0 }],
    genAcc := 0, rng := [], nextId := 5 }

/-- A state in which a waiter is one tick away from delivering a warm plate
to a Waiting table with full happiness; used to separate the source's
system order from the order the spec claims. -/
def wC2 : World :=
  { tables := [{ id := 0, status := TableStatus.Waiting, pos := (0, 0),
                 happiness := some 1, timer := none, plate := none }],
    chefs := [],
    waiters := [{ id := 1, status := WaiterStatus.WalkingToTable, dist := 0,
                  table := some 0, plate := some 2, timer := some ⟨0, 1⟩ }],
    plates := [{ id := 2, status := PlateStatus.Ready, table := some 0,
                 waiter := some 1, temp := some 80 }],
    guests := [],
    genAcc := 0, rng := [], nextId := 3 }

/-- A single plate at the initial temperature of 80 degrees. -/
def wC7 : World :=
  { tables := [], chefs := [], waiters := [],
    plates := [{ id := 0, status := PlateStatus.Ready, table := none,
                 waiter := none, temp := some 80 }],
    guests := [], genAcc := 0, rng := [], nextId := 1 }

/-- Two Unassigned tables and exactly one Idle chef (the matching
exclusivity scenario of spec section 8). -/
def wC1 : World :=
  { tables := [{ id := 0, status := TableStatus.Unassigned, pos := (0, 0),
                 happiness := some 1, timer := none, plate := none },
               { id := 1, status := TableStatus.Unassigned, pos := (0, 5),
                 happiness := some 1, timer := none, plate := none }],
    chefs := [{ id := 2, status := ChefStatus.Idle, table := none,
                plate := none, timer := none }],
    waiters := [], plates := [],
    guests := [{ id := 3, table := 0 }, { id := 4, table := 1 }],
    genAcc := 0, rng := [], nextId := 5 }

/-- Three plates with temperatures, one in each status. -/
def wC6 : World :=
  { tables := [], chefs := [], waiters := [],
    plates := [{ id := 0, status := PlateStatus.Preparing, table := none,
                 waiter := none, temp := some 70 },
               { id := 1, status := PlateStatus.Ready, table := some 0,
                 waiter := none, temp := some 80 },
               { id := 2, status := PlateStatus.InUse, table := some 1,
                 waiter := none, temp := some 30 }],
    guests := [], genAcc := 0, rng := [], nextId := 3 }

/-- A fully booked world: the one table is Dining, the chef is Cooking, and
the waiter walks toward the kitchen for a table that has no plate yet. -/
def wC9 : World :=
  { tables := [{ id := 0, status := TableStatus.Dining, pos := (0, 0),
                 happiness := some 1, timer := some ⟨0, 60⟩, plate := none }],
    chefs := [{ id := 1, status := ChefStatus.Cooking, table := some 0,
                plate := some 4, timer := some ⟨0, 8⟩ }],
    waiters := [{ id := 2, status := WaiterStatus.WalkingToKitchen, dist := 3,
                  table := some 0, plate := none, timer := none }],
    plates := [{ id := 4, status := PlateStatus.Preparing, table := none,
                 waiter := none, temp := none }],
    guests := [{ id := 3, table := 0 }],
    genAcc := 0, rng := [], nextId := 5 }

/-- Two waiters simultaneously walking to their tables, both with expired
trackers: waiter 5 (distance 1, bound for table 3 with plate 4) delivers in
the same pass as waiter 1 (distance 7/2, bound for table 0 with plate 2). -/
def wC10 : World :=
  { tables := [{ id := 0, status := TableStatus.Waiting, pos := (0, 20),
                 happiness := some 1, timer := none, plate := none },
               { id := 3, status := TableStatus.Waiting, pos := (5, 0),
                 happiness := some 1, timer := none, plate := none }],
    chefs := [],
    waiters := [{ id := 5, status := WaiterStatus.WalkingToTable, dist := 1,
                  table := some 3, plate := some 4, timer := some ⟨6, 5⟩ },
                { id := 1, status := WaiterStatus.WalkingToTable, dist := 7/2,
                  table := some 0, plate := some 2, timer := some ⟨20, 20⟩ }],
    plates := [{ id := 2, status := PlateStatus.Ready, table := some 0,
                 waiter := some 1, temp := some 60 },
               { id := 4, status := PlateStatus.Ready, table := some 3,
                 waiter := some 5, temp := some 60 }],
    guests := [],
    genAcc := 0, rng := [], nextId := 6 }

/-- A world exercising both halves of the cooking pipeline: chef 1 is
Cooking with no plate yet (plate creation due), chef 2 is Cooking with
plate 3 and an expired tracker (release due). -/
def wC3 : World :=
  { tables := [{ id := 0, status := TableStatus.Waiting, pos := (0, 0),
                 happiness := some 1, timer := none, plate := none }],
    chefs := [{ id := 1, status := ChefStatus.Cooking, table := some 0,
                plate := none, timer := none },
              { id := 2, status := ChefStatus.Cooking, table := some 0,
                plate := some 3, timer := some ⟨9, 8⟩ }],
    waiters := [],
    plates := [{ id := 3, status := PlateStatus.Preparing, table := none,
                 waiter := none, temp := none }],
    guests := [{ id := 4, table := 0 }],
    genAcc := 0, rng := [], nextId := 5 }

/-! ### List helper lemmas -/

lemma map_eq_self_of {α : Type} (l : List α) (f : α → α) (h : ∀ a ∈ l, f a = a) :
    l.map f = l := by
  induction l with
  | nil => rfl
  | cons a t ih =>
    simp only [List.map_cons]
    rw [h a (List.mem_cons_self a t), ih (fun b hb => h b (List.mem_cons_of_mem a hb))]

lemma foldl_id_of {α β : Type} (f : β → α → β) :
    ∀ (l : List α) (w : β), (∀ a ∈ l, f w a = w) → l.foldl f w = w := by
  intro l
  induction l with
  | nil => intro w _; rfl
  | cons a t ih =>
    intro w h
    rw [List.foldl_cons, h a (List.mem_cons_self a t)]
    exact ih w (fun b hb => h b (List.mem_cons_of_mem a hb))

lemma foldl_preserve {α β : Type} (P : β → Prop) (f : β → α → β) :
    ∀ (l : List α) (w : β), (∀ w' a, a ∈ l → P w' → P (f w' a)) → P w → P (l.foldl f w) := by
  intro l
  induction l with
  | nil => intro w _ hw; exact hw
  | cons a t ih =>
    intro w h hw
    rw [List.foldl_cons]
    exact ih (f w a) (fun w' b hb => h w' b (List.mem_cons_of_mem a hb))
      (h w a (List.mem_cons_self a t) hw)

lemma mem_of_getLast?_eq {α : Type} : ∀ {l : List α} {a : α}, l.getLast? = some a → a ∈ l := by
  intro l
  induction l with
  | nil => intro a h; simp at h
  | cons x t ih =>
    intro a h
    cases t with
    | nil =>
      rw [List.getLast?_singleton] at h
      simp [Option.some_inj.mp h]
    | cons y u =>
      rw [List.getLast?_cons_cons] at h
      exact List.mem_cons_of_mem x (ih h)

lemma countP_map_updateId {α : Type} (idOf : α → Nat) (f : α → α) (a : Nat) (p : α → Bool) :
    ∀ (l : List α), (l.map idOf).Nodup → ∀ x ∈ l, idOf x = a →
      (l.map (fun y => if idOf y = a then f y else y)).countP p + (if p x then 1 else 0) =
        l.countP p + (if p (f x) then 1 else 0) := by
  intro l
  induction l with
  | nil => intro _ x hx; exact absurd hx (List.not_mem_nil x)
  | cons b t ih =>
    intro hnd x hx hxa
    have hnd2 : (idOf b :: t.map idOf).Nodup := by simpa only [List.map_cons] using hnd
    have hnd' := List.nodup_cons.mp hnd2
    by_cases hb : idOf b = a
    · have hxb : x = b := by
        rcases List.mem_cons.mp hx with h | h
        · exact h
        · exfalso
          apply hnd'.1
          have hm : idOf x ∈ t.map idOf := List.mem_map_of_mem idOf h
          rwa [hxa, ← hb] at hm
      have ht : t.map (fun y => if idOf y = a then f y else y) = t := by
        apply map_eq_self_of
        intro y hy
        have hne : idOf y ≠ a := by
          intro hya
          apply hnd'.1
          have hm : idOf y ∈ t.map idOf := List.mem_map_of_mem idOf hy
          rwa [hya, ← hb] at hm
        simp [hne]
      simp only [List.map_cons, if_pos hb, ht, List.countP_cons, hxb]
      omega
    · have hxt : x ∈ t := by
        rcases List.mem_cons.mp hx with h | h
        · exact absurd (h ▸ hxa) hb
        · exact h
      have := ih hnd'.2 x hxt hxa
      simp only [List.map_cons, if_neg hb, List.countP_cons]
      omega

lemma map_updateId_ids {α : Type} (idOf : α → Nat) (f : α → α) (a : Nat)
    (hf : ∀ y, idOf (f y) = idOf y) (l : List α) :
    (l.map (fun y => if idOf y = a then f y else y)).map idOf = l.map idOf := by
  rw [List.map_map]
  apply List.map_congr_left
  intro y _
  by_cases hy : idOf y = a <;> simp [Function.comp, hy, hf]

lemma eq_singleton_of {α : Type} (l : List α) (x : α) (hx : x ∈ l)
    (hall : ∀ y ∈ l, y = x) (hnd : l.Nodup) : l = [x] := by
  cases l with
  | nil => exact absurd hx (List.not_mem_nil x)
  | cons b t =>
    have hb : b = x := hall b (List.mem_cons_self b t)
    cases t with
    | nil => rw [hb]
    | cons c u =>
      have hc : c = x := hall c (by simp)
      exfalso
      have : b ∈ c :: u := by rw [hb, ← hc]; simp
      exact (List.nodup_cons.mp hnd).1 this

/-! ### Claim C6: temperature cooldown hits every plate, whatever its status -/

/-- C6: on every tick, the temperature-cooldown update
temperature -= (temperature - room) * factor * delta is applied to the
Temperature component of every plate in the simulation; the system's query
has no status term, so the plate's status (Preparing, Ready or InUse) is
irrelevant and is left unchanged. -/
theorem C6_temperature_update_every_plate (cfg : Config) (dt : ℚ) (w : World) (p : Plate)
    (hp : p ∈ w.plates) :
    ({ p with temp := p.temp.map (fun t =>
        t - (t - cfg.RoomTemperature) * cfg.PlateCooldownFactor * dt) } : Plate) ∈
      (systems.TemperatureCooldown cfg dt w).plates :=
  List.mem_map_of_mem _ hp

/-- Witness for C6 at a concrete world containing a plate of each status. -/
theorem C6_witness :
    ∃ p ∈ wC6.plates,
      ({ p with temp := p.temp.map (fun t =>
          t - (t - defaultConfig.RoomTemperature) * defaultConfig.PlateCooldownFactor * 2) } : Plate) ∈
        (systems.TemperatureCooldown defaultConfig 2 wC6).plates :=
  ⟨⟨0, PlateStatus.Preparing, none, none, some 70⟩, by with_unfolding_all decide,
    C6_temperature_update_every_plate defaultConfig 2 wC6 _ (by with_unfolding_all decide)⟩

/-! ### Claim C2: the order of systems within a tick -/

/-- C2 (amended): within every tick the scheduler runs the systems in the
declaration order of main.cpp: progress-timer advance, guest spawn, chef
matching, plate creation, cooking, waiter matching, then the two decay
systems (happiness cooldown, temperature cooldown), then waiter locomotion
(to kitchen, then to table), and the dining/leaving transitions last.  The
spec's claim that the decay systems run last is refuted by
C2_counterexample. -/
theorem C2_system_order_within_tick (cfg : Config) (dt : ℚ) (w : World) :
    tick cfg dt w =
      systems.Dine (systems.GuestsLeaving (systems.WaiterToTable cfg dt
        (systems.WaiterToKitchen cfg dt (systems.TemperatureCooldown cfg dt
          (systems.HappinessCooldown cfg dt (systems.AssignWaiter
            (systems.PreparePlate cfg (systems.CreatePlate cfg (systems.AssignChef
              (systems.GuestGenerator cfg dt
                (systems.IncreaseProgressTracker dt w))))))))))) := rfl

/-- C2 counterexample: on a concrete state in which a waiter delivers a
plate this tick, running the systems in the order the spec claims (decay
systems last) produces a different state from the source's tick: in the
source order the still-Waiting table loses happiness to the decay system
before the delivery marks it Dining, while in the claimed order the decay
system sees the table already Dining and skips it. -/
theorem C2_counterexample :
    runSystems specClaimedOrder defaultConfig 1 wC2 ≠ tick defaultConfig 1 wC2 := by
  with_unfolding_all decide

/-! ### Claim C7: plate temperature relaxes toward room temperature -/

/-- C7 (amended): over any sequence of ticks whose delta times are
nonnegative and at most 1/cooldown-factor, a plate whose temperature is at
or above room temperature never increases its temperature and never drops
below room temperature.  Without the bound on the delta time the statement
is false (C7_counterexample): the explicit-Euler update overshoots. -/
theorem C7_temperature_relaxes (cfg : Config) (dts : List ℚ) (w : World) (p : Plate) (t : ℚ)
    (hfac : 0 ≤ cfg.PlateCooldownFactor)
    (hdts : ∀ d ∈ dts, 0 ≤ d ∧ cfg.PlateCooldownFactor * d ≤ 1)
    (hp : p ∈ w.plates) (ht : p.temp = some t) (hroom : cfg.RoomTemperature ≤ t) :
    ∃ p' ∈ (iterTempCooldown cfg dts w).plates, p'.id = p.id ∧
      ∃ t', p'.temp = some t' ∧ cfg.RoomTemperature ≤ t' ∧ t' ≤ t := by
  induction dts generalizing w p t with
  | nil => exact ⟨p, hp, rfl, t, ht, hroom, le_refl t⟩
  | cons d rest ih =>
    obtain ⟨hd0, hd1⟩ := hdts d (List.mem_cons_self d rest)
    have hstep : ({ p with temp := p.temp.map (fun s =>
        s - (s - cfg.RoomTemperature) * cfg.PlateCooldownFactor * d) } : Plate) ∈
        (systems.TemperatureCooldown cfg d w).plates :=
      List.mem_map_of_mem _ hp
    have htemp : ({ p with temp := p.temp.map (fun s =>
        s - (s - cfg.RoomTemperature) * cfg.PlateCooldownFactor * d) } : Plate).temp =
        some (t - (t - cfg.RoomTemperature) * cfg.PlateCooldownFactor * d) := by
      rw [show ({ p with temp := p.temp.map (fun s =>
        s - (s - cfg.RoomTemperature) * cfg.PlateCooldownFactor * d) } : Plate).temp =
          p.temp.map (fun s => s - (s - cfg.RoomTemperature) * cfg.PlateCooldownFactor * d)
        from rfl, ht]
      rfl
    have hb2 : t - (t - cfg.RoomTemperature) * cfg.PlateCooldownFactor * d ≤ t := by
      nlinarith [mul_nonneg (mul_nonneg (sub_nonneg.mpr hroom) hfac) hd0]
    have hb1 : cfg.RoomTemperature ≤ t - (t - cfg.RoomTemperature) * cfg.PlateCooldownFactor * d := by
      nlinarith [mul_nonneg (sub_nonneg.mpr hroom) (sub_nonneg.mpr hd1)]
    obtain ⟨p', hp', hid, t', ht', hr', hle'⟩ :=
      ih (systems.TemperatureCooldown cfg d w) _ _
        (fun d' hd' => hdts d' (List.mem_cons_of_mem d hd')) hstep htemp hb1
    exact ⟨p', hp', hid, t', ht', hr', le_trans hle' hb2⟩

/-- C7 counterexample: with delta time 200 s (cooldown_factor * delta = 2 >
1) a plate at 80 degrees, above the room temperature of 20, is driven to
-40 degrees, crossing below room temperature in one update. -/
theorem C7_counterexample :
    (iterTempCooldown defaultConfig [200] wC7).plates =
      [{ id := 0, status := PlateStatus.Ready, table := none, waiter := none,
         temp := some (-40) }] ∧
    defaultConfig.RoomTemperature ≤ (80 : ℚ) ∧
    (-40 : ℚ) < defaultConfig.RoomTemperature ∧ (0 : ℚ) ≤ 200 := by with_unfolding_all decide

/-- Witness for C7 over two 1-second ticks from 80 degrees. -/
theorem C7_witness :
    ∃ p' ∈ (iterTempCooldown defaultConfig [1, 1] wC7).plates,
      p'.id = (⟨0, PlateStatus.Ready, none, none, some 80⟩ : Plate).id ∧
      ∃ t', p'.temp = some t' ∧ defaultConfig.RoomTemperature ≤ t' ∧ t' ≤ 80 :=
  C7_temperature_relaxes defaultConfig [1, 1] wC7 ⟨0, PlateStatus.Ready, none, none, some 80⟩ 80
    (by norm_num [defaultConfig])
    (by
      intro d hd
      have : d = 1 ∨ d = 1 ∨ False := by simpa using hd
      rcases this with h | h | h
      · subst h; norm_num [defaultConfig]
      · subst h; norm_num [defaultConfig]
      · exact h.elim)
    (by with_unfolding_all decide) rfl (by norm_num [defaultConfig])

/-! ### Claim C9: every no-match outcome is a non-erroneous no-op -/

lemma spawnParty_no_free (cfg : Config) (w : World)
    (h : ∀ t ∈ w.tables, t.status ≠ TableStatus.Unoccupied) :
    systems.spawnParty cfg w = w := by
  have hfil : w.tables.filter (fun t => t.status = TableStatus.Unoccupied) = [] := by
    rw [List.filter_eq_nil_iff]
    intro t htm
    simpa using h t htm
  unfold systems.spawnParty
  rw [hfil]
  rfl

lemma gen_no_free_tables (cfg : Config) (dt : ℚ) (w : World)
    (h : ∀ t ∈ w.tables, t.status ≠ TableStatus.Unoccupied) :
    (systems.GuestGenerator cfg dt w).tables = w.tables ∧
      (systems.GuestGenerator cfg dt w).guests = w.guests := by
  unfold systems.GuestGenerator
  split
  · rw [spawnParty_no_free cfg w h]
    exact ⟨rfl, rfl⟩
  · exact ⟨rfl, rfl⟩

lemma iterGen_no_free (cfg : Config) (dt : ℚ) :
    ∀ (n : Nat) (w : World), (∀ t ∈ w.tables, t.status ≠ TableStatus.Unoccupied) →
      (iterGen cfg dt n w).tables = w.tables ∧ (iterGen cfg dt n w).guests = w.guests := by
  intro n
  induction n with
  | zero => intro w _; exact ⟨rfl, rfl⟩
  | succ m ih =>
    intro w h
    obtain ⟨ht, hg⟩ := gen_no_free_tables cfg dt w h
    have h' : ∀ t ∈ (systems.GuestGenerator cfg dt w).tables,
        t.status ≠ TableStatus.Unoccupied := by
      rw [ht]; exact h
    obtain ⟨ht2, hg2⟩ := ih (systems.GuestGenerator cfg dt w) h'
    exact ⟨ht2.trans ht, hg2.trans hg⟩

lemma assignChef_no_idle (w : World) (h : ∀ c ∈ w.chefs, c.status ≠ ChefStatus.Idle) :
    systems.AssignChef w = w := by
  have hfil : w.chefs.filter (fun c => c.status = ChefStatus.Idle) = [] := by
    rw [List.filter_eq_nil_iff]
    intro c hc
    simpa using h c hc
  have hfind : systems.findIdleChef w.chefs = none := by
    unfold systems.findIdleChef
    rw [hfil]
    rfl
  unfold systems.AssignChef
  apply foldl_id_of
  intro t _
  unfold systems.assignChefStep
  rw [hfind]

lemma assignWaiter_no_idle (w : World) (h : ∀ x ∈ w.waiters, x.status ≠ WaiterStatus.Idle) :
    systems.AssignWaiter w = w := by
  have hfil : w.waiters.filter (fun x => x.status = WaiterStatus.Idle) = [] := by
    rw [List.filter_eq_nil_iff]
    intro x hx
    simpa using h x hx
  have hfind : systems.findIdleWaiter w.waiters = none := by
    unfold systems.findIdleWaiter
    rw [hfil]
    rfl
  unfold systems.AssignWaiter
  apply foldl_id_of
  intro p _
  unfold systems.assignWaiterStep
  rw [hfind]

lemma waiterToKitchen_no_plate (cfg : Config) (dt : ℚ) (w : World) (x : Waiter)
    (hx : x ∈ w.waiters) (hst : x.status = WaiterStatus.WalkingToKitchen)
    (hnp : systems.findPlateForTable w x.table = none) :
    ∃ x' ∈ (systems.WaiterToKitchen cfg dt w).waiters, x'.id = x.id ∧
      x'.status = WaiterStatus.WalkingToKitchen ∧ x'.table = x.table ∧
      x'.plate = x.plate ∧ x'.timer = x.timer := by
  refine ⟨_, List.mem_map_of_mem _ hx, ?_⟩
  simp only
  rw [if_pos hst]
  by_cases hd : x.dist - cfg.WaiterSpeed * dt ≤ 0
  · rw [if_pos hd, hnp]
    cases x.table.bind (fun tid => (w.tables.filter (fun t => t.id = tid)).getLast?) <;>
      exact ⟨rfl, hst, rfl, rfl, rfl⟩
  · rw [if_neg hd]
    exact ⟨rfl, hst, rfl, rfl, rfl⟩

/-- C9: each no-match outcome is an unexceptional no-op retried later: with
no Unoccupied table the demand generator spawns nothing over any number of
its intervals (table list and guest list unchanged); with no Idle chef the
chef-matching pass changes nothing; with no Idle waiter the waiter-matching
pass changes nothing; and a WalkingToKitchen waiter whose table has no
locatable plate keeps its status, relations and tracker, remaining eligible
for retry on a later tick.  The generator's interval gate is modelled from
the spec (the flecs tick source is external to the repository). -/
theorem C9_no_match_is_noop (cfg : Config) (dt : ℚ) :
    (∀ (w : World) (n : Nat), (∀ t ∈ w.tables, t.status ≠ TableStatus.Unoccupied) →
      (iterGen cfg dt n w).tables = w.tables ∧ (iterGen cfg dt n w).guests = w.guests) ∧
    (∀ w : World, (∀ c ∈ w.chefs, c.status ≠ ChefStatus.Idle) →
      systems.AssignChef w = w) ∧
    (∀ w : World, (∀ x ∈ w.waiters, x.status ≠ WaiterStatus.Idle) →
      systems.AssignWaiter w = w) ∧
    (∀ (w : World) (x : Waiter), x ∈ w.waiters →
      x.status = WaiterStatus.WalkingToKitchen →
      systems.findPlateForTable w x.table = none →
      ∃ x' ∈ (systems.WaiterToKitchen cfg dt w).waiters, x'.id = x.id ∧
        x'.status = WaiterStatus.WalkingToKitchen ∧ x'.table = x.table ∧
        x'.plate = x.plate ∧ x'.timer = x.timer) :=
  ⟨fun w n h => iterGen_no_free cfg dt n w h,
   fun w h => assignChef_no_idle w h,
   fun w h => assignWaiter_no_idle w h,
   fun w x hx hst hnp => waiterToKitchen_no_plate cfg dt w x hx hst hnp⟩

/-- Witness for C9 at a fully booked concrete world: no free table, no
idle staff, and a kitchen-bound waiter whose table's plate is not yet
locatable. -/
theorem C9_witness :
    ((iterGen defaultConfig 5 3 wC9).tables = wC9.tables ∧
      (iterGen defaultConfig 5 3 wC9).guests = wC9.guests) ∧
    systems.AssignChef wC9 = wC9 ∧
    systems.AssignWaiter wC9 = wC9 ∧
    (∃ x' ∈ (systems.WaiterToKitchen defaultConfig 1 wC9).waiters, x'.id = 2 ∧
      x'.status = WaiterStatus.WalkingToKitchen ∧ x'.table = some 0 ∧
      x'.plate = none ∧ x'.timer = none) :=
  ⟨(C9_no_match_is_noop defaultConfig 5).1 wC9 3 (by with_unfolding_all decide),
   (C9_no_match_is_noop defaultConfig 5).2.1 wC9 (by with_unfolding_all decide),
   (C9_no_match_is_noop defaultConfig 5).2.2.1 wC9 (by with_unfolding_all decide),
   (C9_no_match_is_noop defaultConfig 1).2.2.2 wC9
     ⟨2, WaiterStatus.WalkingToKitchen, 3, some 0, none, none⟩
     (by with_unfolding_all decide) rfl (by with_unfolding_all decide)⟩

/-! ### Claim C1: chef matching is exclusive within a pass -/

lemma findIdleChef_some {cs : List Chef} {c : Chef} (h : systems.findIdleChef cs = some c) :
    c ∈ cs ∧ c.status = ChefStatus.Idle := by
  have hm := mem_of_getLast?_eq h
  exact ⟨List.mem_of_mem_filter hm, by simpa using (List.mem_filter.mp hm).2⟩

lemma findIdleChef_of_pos {cs : List Chef}
    (h : 0 < (cs.filter (fun c => c.status = ChefStatus.Idle)).length) :
    ∃ c, systems.findIdleChef cs = some c := by
  unfold systems.findIdleChef
  cases hg : (cs.filter (fun c => c.status = ChefStatus.Idle)).getLast? with
  | none =>
    rw [List.getLast?_eq_none_iff] at hg
    rw [hg] at h
    simp at h
  | some c => exact ⟨c, rfl⟩

lemma countP_map_update_flip {α : Type} (idOf : α → Nat) (f : α → α) (a : Nat)
    (p : α → Bool) (l : List α) (hnd : (l.map idOf).Nodup) (x : α) (hx : x ∈ l)
    (hida : idOf x = a) (hpx : p x = true) (hpfx : p (f x) = false) :
    (l.map (fun y => if idOf y = a then f y else y)).countP p + 1 = l.countP p := by
  have h := countP_map_updateId idOf f a p l hnd x hx hida
  rw [hpx, hpfx] at h
  simpa using h

lemma countP_map_update_gain {α : Type} (idOf : α → Nat) (f : α → α) (a : Nat)
    (p : α → Bool) (l : List α) (hnd : (l.map idOf).Nodup) (x : α) (hx : x ∈ l)
    (hida : idOf x = a) (hpx : p x = false) (hpfx : p (f x) = true) :
    (l.map (fun y => if idOf y = a then f y else y)).countP p = l.countP p + 1 := by
  have h := countP_map_updateId idOf f a p l hnd x hx hida
  rw [hpx, hpfx] at h
  simpa using h

lemma assignChef_fold_counts :
    ∀ (ts : List Table) (w : World),
      (w.chefs.map Chef.id).Nodup → (w.tables.map Table.id).Nodup →
      (ts.map Table.id).Nodup →
      (∀ t ∈ ts, ∃ t0 ∈ w.tables, t0.id = t.id ∧ t0.status = TableStatus.Unassigned) →
      countCookingChefs (ts.foldl systems.assignChefStep w) =
          countCookingChefs w + min (countIdleChefs w) ts.length ∧
      countIdleChefs (ts.foldl systems.assignChefStep w) +
          min (countIdleChefs w) ts.length = countIdleChefs w ∧
      countWaitingTables (ts.foldl systems.assignChefStep w) =
          countWaitingTables w + min (countIdleChefs w) ts.length ∧
      countUnassignedTables (ts.foldl systems.assignChefStep w) +
          min (countIdleChefs w) ts.length = countUnassignedTables w := by
  intro ts
  induction ts with
  | nil =>
    intro w _ _ _ _
    simp
  | cons t rest ih =>
    intro w hcnd htnd htsnd hmem
    have hrestnd : (rest.map Table.id).Nodup :=
      (List.nodup_cons.mp (by simpa only [List.map_cons] using htsnd)).2
    have htid : t.id ∉ rest.map Table.id :=
      (List.nodup_cons.mp (by simpa only [List.map_cons] using htsnd)).1
    by_cases h0 : countIdleChefs w = 0
    · have hfil : w.chefs.filter (fun c => c.status = ChefStatus.Idle) = [] :=
        List.length_eq_zero.mp h0
      have hfind : systems.findIdleChef w.chefs = none := by
        unfold systems.findIdleChef
        rw [hfil]
        rfl
      have hstep : systems.assignChefStep w t = w := by
        unfold systems.assignChefStep
        rw [hfind]
      rw [List.foldl_cons, hstep]
      obtain ⟨h1, h2, h3, h4⟩ := ih w hcnd htnd hrestnd
        (fun t' ht' => hmem t' (List.mem_cons_of_mem t ht'))
      rw [h0] at h1 h2 h3 h4 ⊢
      simp only [Nat.zero_min] at h1 h2 h3 h4 ⊢
      exact ⟨h1, by omega, h3, by omega⟩
    · obtain ⟨c, hfind⟩ := findIdleChef_of_pos (Nat.pos_of_ne_zero h0)
      obtain ⟨hcmem, hcidle⟩ := findIdleChef_some hfind
      obtain ⟨t0, ht0mem, ht0id, ht0st⟩ := hmem t (List.mem_cons_self t rest)
      have hstep : systems.assignChefStep w t = { w with
          chefs := w.chefs.map (fun y =>
            if y.id = c.id then { y with table := some t.id, status := ChefStatus.Cooking } else y),
          tables := w.tables.map (fun y =>
            if y.id = t.id then { y with status := TableStatus.Waiting } else y) } := by
        unfold systems.assignChefStep
        rw [hfind]
      rw [List.foldl_cons, hstep]
      -- counts after the single assignment
      have hIdle' : countIdleChefs { w with
          chefs := w.chefs.map (fun y =>
            if y.id = c.id then { y with table := some t.id, status := ChefStatus.Cooking } else y),
          tables := w.tables.map (fun y =>
            if y.id = t.id then { y with status := TableStatus.Waiting } else y) } + 1 =
          countIdleChefs w := by
        unfold countIdleChefs
        rw [← List.countP_eq_length_filter, ← List.countP_eq_length_filter]
        exact countP_map_update_flip Chef.id _ c.id _ w.chefs hcnd c hcmem rfl
          (by simp [hcidle]) (by simp)
      have hCook' : countCookingChefs { w with
          chefs := w.chefs.map (fun y =>
            if y.id = c.id then { y with table := some t.id, status := ChefStatus.Cooking } else y),
          tables := w.tables.map (fun y =>
            if y.id = t.id then { y with status := TableStatus.Waiting } else y) } =
          countCookingChefs w + 1 := by
        unfold countCookingChefs
        rw [← List.countP_eq_length_filter, ← List.countP_eq_length_filter]
        exact countP_map_update_gain Chef.id _ c.id _ w.chefs hcnd c hcmem rfl
          (by simp [hcidle]) (by simp)
      have hUna' : countUnassignedTables { w with
          chefs := w.chefs.map (fun y =>
            if y.id = c.id then { y with table := some t.id, status := ChefStatus.Cooking } else y),
          tables := w.tables.map (fun y =>
            if y.id = t.id then { y with status := TableStatus.Waiting } else y) } + 1 =
          countUnassignedTables w := by
        unfold countUnassignedTables
        rw [← List.countP_eq_length_filter, ← List.countP_eq_length_filter]
        exact countP_map_update_flip Table.id _ t.id _ w.tables htnd t0 ht0mem ht0id
          (by simp [ht0st]) (by simp)
      have hWait' : countWaitingTables { w with
          chefs := w.chefs.map (fun y =>
            if y.id = c.id then { y with table := some t.id, status := ChefStatus.Cooking } else y),
          tables := w.tables.map (fun y =>
            if y.id = t.id then { y with status := TableStatus.Waiting } else y) } =
          countWaitingTables w + 1 := by
        unfold countWaitingTables
        rw [← List.countP_eq_length_filter, ← List.countP_eq_length_filter]
        exact countP_map_update_gain Table.id _ t.id _ w.tables htnd t0 ht0mem ht0id
          (by simp [ht0st]) (by simp)
      -- recursion prerequisites at the updated world
      have hcnd' : (({ w with
          chefs := w.chefs.map (fun y =>
            if y.id = c.id then { y with table := some t.id, status := ChefStatus.Cooking } else y),
          tables := w.tables.map (fun y =>
            if y.id = t.id then { y with status := TableStatus.Waiting } else y) } : World).chefs.map
            Chef.id).Nodup := by
        show ((w.chefs.map _).map Chef.id).Nodup
        rw [map_updateId_ids Chef.id
          (fun y => { y with table := some t.id, status := ChefStatus.Cooking }) c.id
          (fun y => rfl)]
        exact hcnd
      have htnd' : (({ w with
          chefs := w.chefs.map (fun y =>
            if y.id = c.id then { y with table := some t.id, status := ChefStatus.Cooking } else y),
          tables := w.tables.map (fun y =>
            if y.id = t.id then { y with status := TableStatus.Waiting } else y) } : World).tables.map
            Table.id).Nodup := by
        show ((w.tables.map _).map Table.id).Nodup
        rw [map_updateId_ids Table.id
          (fun y => { y with status := TableStatus.Waiting }) t.id
          (fun y => rfl)]
        exact htnd
      have hmem' : ∀ t' ∈ rest, ∃ t0' ∈ ({ w with
          chefs := w.chefs.map (fun y =>
            if y.id = c.id then { y with table := some t.id, status := ChefStatus.Cooking } else y),
          tables := w.tables.map (fun y =>
            if y.id = t.id then { y with status := TableStatus.Waiting } else y) } : World).tables,
          t0'.id = t'.id ∧ t0'.status = TableStatus.Unassigned := by
        intro t' ht'
        obtain ⟨t0', hmem0, hid0, hst0⟩ := hmem t' (List.mem_cons_of_mem t ht')
        have hne : ¬ t0'.id = t.id := by
          intro hEq
          apply htid
          rw [← hEq, hid0]
          exact List.mem_map_of_mem Table.id ht'
        refine ⟨t0', ?_, hid0, hst0⟩
        have hm := List.mem_map_of_mem
          (fun y => if y.id = t.id then { y with status := TableStatus.Waiting } else y) hmem0
        simpa [hne] using hm
      obtain ⟨h1, h2, h3, h4⟩ := ih _ hcnd' htnd' hrestnd hmem'
      simp only [List.length_cons]
      omega

/-- C1: in one chef-matching pass, the number of chefs that turn from Idle
to Cooking and the number of tables that turn from Unassigned to Waiting
both equal min(idle chefs, unassigned tables): each idle chef is consumed
by at most one table, and a chef assigned earlier in the pass is no longer
visible in the idle-chef snapshot used for later tables (the pass runs
unstaged).  In particular, with exactly 2 Unassigned tables and exactly 1
Idle chef, one table becomes Waiting and exactly one table is still
Unassigned after the pass. -/
theorem C1_chef_matching_exclusive (w : World)
    (hcnd : (w.chefs.map Chef.id).Nodup) (htnd : (w.tables.map Table.id).Nodup) :
    (countCookingChefs (systems.AssignChef w) =
        countCookingChefs w + min (countIdleChefs w) (countUnassignedTables w) ∧
      countIdleChefs (systems.AssignChef w) +
        min (countIdleChefs w) (countUnassignedTables w) = countIdleChefs w ∧
      countWaitingTables (systems.AssignChef w) =
        countWaitingTables w + min (countIdleChefs w) (countUnassignedTables w) ∧
      countUnassignedTables (systems.AssignChef w) +
        min (countIdleChefs w) (countUnassignedTables w) = countUnassignedTables w) ∧
    (countUnassignedTables w = 2 → countIdleChefs w = 1 →
      countWaitingTables (systems.AssignChef w) = countWaitingTables w + 1 ∧
      countUnassignedTables (systems.AssignChef w) = 1) := by
  have htsnd : ((w.tables.filter (fun t => t.status = TableStatus.Unassigned)).map
      Table.id).Nodup :=
    List.Nodup.sublist ((List.filter_sublist w.tables).map Table.id) htnd
  have hmem : ∀ t ∈ w.tables.filter (fun t => t.status = TableStatus.Unassigned),
      ∃ t0 ∈ w.tables, t0.id = t.id ∧ t0.status = TableStatus.Unassigned := by
    intro t ht
    exact ⟨t, List.mem_of_mem_filter ht, rfl, by simpa using (List.mem_filter.mp ht).2⟩
  have hlen : (w.tables.filter (fun t => t.status = TableStatus.Unassigned)).length =
      countUnassignedTables w := rfl
  obtain ⟨h1, h2, h3, h4⟩ := assignChef_fold_counts
    (w.tables.filter (fun t => t.status = TableStatus.Unassigned)) w hcnd htnd htsnd hmem
  have he : List.foldl systems.assignChefStep w
      (w.tables.filter (fun t => t.status = TableStatus.Unassigned)) =
      systems.AssignChef w := rfl
  rw [hlen, he] at h1 h2 h3 h4
  refine ⟨⟨h1, h2, h3, h4⟩, ?_⟩
  intro hu hi
  rw [hu, hi] at h3 h4
  constructor
  · simpa using h3
  · omega

/-- Witness for C1 at a concrete world with 2 Unassigned tables and 1 Idle
chef. -/
theorem C1_witness :
    countWaitingTables (systems.AssignChef wC1) = countWaitingTables wC1 + 1 ∧
    countUnassignedTables (systems.AssignChef wC1) = 1 :=
  (C1_chef_matching_exclusive wC1 (by with_unfolding_all decide)
    (by with_unfolding_all decide)).2 (by with_unfolding_all decide)
    (by with_unfolding_all decide)

/-! ### Claim C5: staff pool sizes are conserved -/

lemma chef_partition (cs : List Chef) :
    (cs.filter (fun c => c.status = ChefStatus.Idle)).length +
      (cs.filter (fun c => c.status = ChefStatus.Cooking)).length = cs.length := by
  induction cs with
  | nil => rfl
  | cons c t ih =>
    cases hc : c.status with
    | Idle => simp only [List.filter_cons, hc]; simp; omega
    | Cooking => simp only [List.filter_cons, hc]; simp; omega

lemma waiter_partition (ws : List Waiter) :
    (ws.filter (fun x => x.status = WaiterStatus.Idle)).length +
      (ws.filter (fun x => x.status = WaiterStatus.WalkingToKitchen ∨
        x.status = WaiterStatus.WalkingToTable)).length = ws.length := by
  induction ws with
  | nil => rfl
  | cons x t ih =>
    simp only [Bool.decide_or] at ih
    cases hx : x.status with
    | Idle => simp [List.filter_cons, hx, Bool.decide_or]; omega
    | WalkingToTable => simp [List.filter_cons, hx, Bool.decide_or]; omega
    | WalkingToKitchen => simp [List.filter_cons, hx, Bool.decide_or]; omega

/-- Staff-list lengths preserved: the property every system below satisfies. -/
def StaffLenEq (v : World) (w : World) : Prop :=
  v.chefs.length = w.chefs.length ∧ v.waiters.length = w.waiters.length

lemma staffLen_IPT (dt : ℚ) (w : World) :
    StaffLenEq (systems.IncreaseProgressTracker dt w) w := by
  constructor <;> simp [systems.IncreaseProgressTracker]

lemma spawnParty_chefs (cfg : Config) (w : World) :
    (systems.spawnParty cfg w).chefs = w.chefs := by
  unfold systems.spawnParty
  split <;> rfl

lemma spawnParty_waiters (cfg : Config) (w : World) :
    (systems.spawnParty cfg w).waiters = w.waiters := by
  unfold systems.spawnParty
  split <;> rfl

lemma staffLen_gen (cfg : Config) (dt : ℚ) (w : World) :
    StaffLenEq (systems.GuestGenerator cfg dt w) w := by
  unfold StaffLenEq systems.GuestGenerator
  split
  · rw [show ({ systems.spawnParty cfg w with genAcc := 0 } : World).chefs =
        (systems.spawnParty cfg w).chefs from rfl,
      show ({ systems.spawnParty cfg w with genAcc := 0 } : World).waiters =
        (systems.spawnParty cfg w).waiters from rfl,
      spawnParty_chefs, spawnParty_waiters]
    exact ⟨rfl, rfl⟩
  · exact ⟨rfl, rfl⟩

lemma staffLen_assignChefStep (w : World) (t : Table) :
    StaffLenEq (systems.assignChefStep w t) w := by
  unfold StaffLenEq systems.assignChefStep
  split
  · exact ⟨rfl, rfl⟩
  · exact ⟨by simp, rfl⟩

lemma staffLen_assignChef (w : World) : StaffLenEq (systems.AssignChef w) w := by
  unfold systems.AssignChef
  refine foldl_preserve (fun v => StaffLenEq v w) systems.assignChefStep _ w ?_ ⟨rfl, rfl⟩
  intro v t _ hv
  obtain ⟨h1, h2⟩ := staffLen_assignChefStep v t
  exact ⟨h1.trans hv.1, h2.trans hv.2⟩

lemma createPlate_fold_len (cfg : Config) (w : World) :
    ∀ (cs : List Chef) (acc : List Chef × List Plate × Nat),
      (cs.foldl (systems.createPlateStep cfg w) acc).1.length = acc.1.length + cs.length := by
  intro cs
  induction cs with
  | nil => intro acc; simp
  | cons c t ih =>
    intro acc
    rw [List.foldl_cons, ih]
    unfold systems.createPlateStep
    split <;> simp <;> omega

lemma staffLen_createPlate (cfg : Config) (w : World) :
    StaffLenEq (systems.CreatePlate cfg w) w := by
  constructor
  · show (w.chefs.foldl (systems.createPlateStep cfg w) ([], [], w.nextId)).1.length =
      w.chefs.length
    rw [createPlate_fold_len]
    simp
  · rfl

lemma staffLen_preparePlateStep (cfg : Config) (v : World) (c : Chef) :
    StaffLenEq (systems.preparePlateStep cfg v c) v := by
  constructor
  · show (systems.preparePlateStep cfg v c).chefs.length = v.chefs.length
    unfold systems.preparePlateStep
    repeat' split
    all_goals simp
  · show (systems.preparePlateStep cfg v c).waiters.length = v.waiters.length
    unfold systems.preparePlateStep
    repeat' split
    all_goals rfl

lemma staffLen_preparePlate (cfg : Config) (w : World) :
    StaffLenEq (systems.PreparePlate cfg w) w := by
  unfold systems.PreparePlate
  refine foldl_preserve (fun v => StaffLenEq v w) (systems.preparePlateStep cfg) _ w ?_ ⟨rfl, rfl⟩
  intro v c _ hv
  obtain ⟨h1, h2⟩ := staffLen_preparePlateStep cfg v c
  exact ⟨h1.trans hv.1, h2.trans hv.2⟩

lemma staffLen_assignWaiterStep (v : World) (p : Plate) :
    StaffLenEq (systems.assignWaiterStep v p) v := by
  unfold StaffLenEq systems.assignWaiterStep
  split
  · exact ⟨rfl, rfl⟩
  · exact ⟨rfl, by simp⟩

lemma staffLen_assignWaiter (w : World) : StaffLenEq (systems.AssignWaiter w) w := by
  unfold systems.AssignWaiter
  refine foldl_preserve (fun v => StaffLenEq v w) systems.assignWaiterStep _ w ?_ ⟨rfl, rfl⟩
  intro v p _ hv
  obtain ⟨h1, h2⟩ := staffLen_assignWaiterStep v p
  exact ⟨h1.trans hv.1, h2.trans hv.2⟩

lemma staffLen_happiness (cfg : Config) (dt : ℚ) (w : World) :
    StaffLenEq (systems.HappinessCooldown cfg dt w) w := ⟨rfl, rfl⟩

lemma staffLen_temperature (cfg : Config) (dt : ℚ) (w : World) :
    StaffLenEq (systems.TemperatureCooldown cfg dt w) w := ⟨rfl, rfl⟩

lemma staffLen_waiterToKitchen (cfg : Config) (dt : ℚ) (w : World) :
    StaffLenEq (systems.WaiterToKitchen cfg dt w) w := by
  constructor
  · rfl
  · simp [systems.WaiterToKitchen]

lemma staffLen_waiterToTableStep (cfg : Config) (dt : ℚ) (v : World) (x : Waiter) :
    StaffLenEq (systems.waiterToTableStep cfg dt v x) v := by
  constructor
  · show (systems.waiterToTableStep cfg dt v x).chefs.length = v.chefs.length
    unfold systems.waiterToTableStep
    repeat' split
    all_goals rfl
  · show (systems.waiterToTableStep cfg dt v x).waiters.length = v.waiters.length
    unfold systems.waiterToTableStep
    repeat' split
    all_goals simp

lemma staffLen_waiterToTable (cfg : Config) (dt : ℚ) (w : World) :
    StaffLenEq (systems.WaiterToTable cfg dt w) w := by
  unfold systems.WaiterToTable
  refine foldl_preserve (fun v => StaffLenEq v w) (systems.waiterToTableStep cfg dt) _ w ?_
    ⟨rfl, rfl⟩
  intro v x _ hv
  obtain ⟨h1, h2⟩ := staffLen_waiterToTableStep cfg dt v x
  exact ⟨h1.trans hv.1, h2.trans hv.2⟩

lemma staffLen_guestsLeaving (w : World) : StaffLenEq (systems.GuestsLeaving w) w :=
  ⟨rfl, rfl⟩

lemma staffLen_dine (w : World) : StaffLenEq (systems.Dine w) w := by
  constructor <;> simp [systems.Dine]

/-- The tick as the explicit composition of the twelve systems (used
internally; provable by unfolding the fold over the declaration-order
list). -/
lemma tick_eq (cfg : Config) (dt : ℚ) (w : World) :
    tick cfg dt w =
      systems.Dine (systems.GuestsLeaving (systems.WaiterToTable cfg dt
        (systems.WaiterToKitchen cfg dt (systems.TemperatureCooldown cfg dt
          (systems.HappinessCooldown cfg dt (systems.AssignWaiter
            (systems.PreparePlate cfg (systems.CreatePlate cfg (systems.AssignChef
              (systems.GuestGenerator cfg dt
                (systems.IncreaseProgressTracker dt w))))))))))) := rfl

lemma StaffLenEq.chain {a b c : World} (h1 : StaffLenEq a b) (h2 : StaffLenEq b c) :
    StaffLenEq a c :=
  ⟨h1.1.trans h2.1, h1.2.trans h2.2⟩

lemma staffLen_tick (cfg : Config) (dt : ℚ) (w : World) : StaffLenEq (tick cfg dt w) w := by
  rw [tick_eq]
  exact ((staffLen_dine _).chain ((staffLen_guestsLeaving _).chain
    ((staffLen_waiterToTable cfg dt _).chain ((staffLen_waiterToKitchen cfg dt _).chain
      ((staffLen_temperature cfg dt _).chain ((staffLen_happiness cfg dt _).chain
        ((staffLen_assignWaiter _).chain ((staffLen_preparePlate cfg _).chain
          ((staffLen_createPlate cfg _).chain ((staffLen_assignChef _).chain
            ((staffLen_gen cfg dt _).chain (staffLen_IPT dt w))))))))))))

lemma staffLen_runTicks (cfg : Config) (dts : List ℚ) (w : World) :
    StaffLenEq (runTicks cfg dts w) w := by
  unfold runTicks
  refine foldl_preserve (fun v => StaffLenEq v w) (fun v d => tick cfg d v) _ w ?_ ⟨rfl, rfl⟩
  intro v d _ hv
  obtain ⟨h1, h2⟩ := staffLen_tick cfg d v
  exact ⟨h1.trans hv.1, h2.trans hv.2⟩

lemma preserves_of_staffLen {f : World → World}
    (h : ∀ w, StaffLenEq (f w) w) : PreservesStaffCounts f := by
  intro w
  obtain ⟨h1, h2⟩ := h w
  constructor
  · have p1 := chef_partition (f w).chefs
    have p2 := chef_partition w.chefs
    unfold countIdleChefs countCookingChefs
    omega
  · have p1 := waiter_partition (f w).waiters
    have p2 := waiter_partition w.waiters
    unfold countIdleWaiters countWalkingWaiters
    omega

lemma init_staff_len (cfg : Config) (rng : List Nat) :
    (init cfg rng).chefs.length = cfg.ChefCount ∧
      (init cfg rng).waiters.length = cfg.WaiterCount := by
  constructor <;> simp [init]

/-- C5: in every state reachable by running any number of ticks from
start-up, idle chefs + cooking chefs = ChefCount and idle waiters + walking
waiters (to kitchen or to table) = WaiterCount; moreover every one of the
twelve systems preserves both sums (each preserves the staff lists'
lengths, and the status tags partition each pool). -/
theorem C5_staff_pools_conserved (cfg : Config) (rng : List Nat) (dts : List ℚ) :
    countIdleChefs (runTicks cfg dts (init cfg rng)) +
        countCookingChefs (runTicks cfg dts (init cfg rng)) = cfg.ChefCount ∧
    countIdleWaiters (runTicks cfg dts (init cfg rng)) +
        countWalkingWaiters (runTicks cfg dts (init cfg rng)) = cfg.WaiterCount ∧
    (∀ dt : ℚ, PreservesStaffCounts (tick cfg dt)) ∧
    (∀ dt : ℚ, PreservesStaffCounts (systems.IncreaseProgressTracker dt)) ∧
    (∀ dt : ℚ, PreservesStaffCounts (systems.GuestGenerator cfg dt)) ∧
    PreservesStaffCounts systems.AssignChef ∧
    PreservesStaffCounts (systems.CreatePlate cfg) ∧
    PreservesStaffCounts (systems.PreparePlate cfg) ∧
    PreservesStaffCounts systems.AssignWaiter ∧
    (∀ dt : ℚ, PreservesStaffCounts (systems.HappinessCooldown cfg dt)) ∧
    (∀ dt : ℚ, PreservesStaffCounts (systems.TemperatureCooldown cfg dt)) ∧
    (∀ dt : ℚ, PreservesStaffCounts (systems.WaiterToKitchen cfg dt)) ∧
    (∀ dt : ℚ, PreservesStaffCounts (systems.WaiterToTable cfg dt)) ∧
    PreservesStaffCounts systems.GuestsLeaving ∧
    PreservesStaffCounts systems.Dine := by
  refine ⟨?_, ?_, ?_, ?_, ?_, ?_, ?_, ?_, ?_, ?_, ?_, ?_, ?_, ?_, ?_⟩
  · have hp := chef_partition (runTicks cfg dts (init cfg rng)).chefs
    have hl := (staffLen_runTicks cfg dts (init cfg rng)).1
    have hi := (init_staff_len cfg rng).1
    unfold countIdleChefs countCookingChefs
    omega
  · have hp := waiter_partition (runTicks cfg dts (init cfg rng)).waiters
    have hl := (staffLen_runTicks cfg dts (init cfg rng)).2
    have hi := (init_staff_len cfg rng).2
    unfold countIdleWaiters countWalkingWaiters
    omega
  · exact fun dt => preserves_of_staffLen (staffLen_tick cfg dt)
  · exact fun dt => preserves_of_staffLen (staffLen_IPT dt)
  · exact fun dt => preserves_of_staffLen (staffLen_gen cfg dt)
  · exact preserves_of_staffLen staffLen_assignChef
  · exact preserves_of_staffLen (staffLen_createPlate cfg)
  · exact preserves_of_staffLen (staffLen_preparePlate cfg)
  · exact preserves_of_staffLen staffLen_assignWaiter
  · exact fun dt => preserves_of_staffLen (staffLen_happiness cfg dt)
  · exact fun dt => preserves_of_staffLen (staffLen_temperature cfg dt)
  · exact fun dt => preserves_of_staffLen (staffLen_waiterToKitchen cfg dt)
  · exact fun dt => preserves_of_staffLen (staffLen_waiterToTable cfg dt)
  · exact preserves_of_staffLen staffLen_guestsLeaving
  · exact preserves_of_staffLen staffLen_dine

/-! ### Claim C4: zero-delta ticks -/

lemma eq_of_idOf_mem {α : Type} (idOf : α → Nat) :
    ∀ {l : List α}, (l.map idOf).Nodup → ∀ {x y : α}, x ∈ l → y ∈ l →
      idOf y = idOf x → y = x := by
  intro l
  induction l with
  | nil => intro _ x y hx _ _; exact absurd hx (List.not_mem_nil x)
  | cons b t ih =>
    intro hnd x y hx hy hid
    have hnd2 := List.nodup_cons.mp (by simpa only [List.map_cons] using hnd)
    rcases List.mem_cons.mp hx with hxb | hxt <;> rcases List.mem_cons.mp hy with hyb | hyt
    · rw [hxb, hyb]
    · exfalso
      apply hnd2.1
      have hm : idOf y ∈ t.map idOf := List.mem_map_of_mem idOf hyt
      rwa [hid, hxb] at hm
    · exfalso
      apply hnd2.1
      have hm : idOf x ∈ t.map idOf := List.mem_map_of_mem idOf hxt
      rwa [← hid, hyb] at hm
    · exact ih hnd2.2 hxt hyt hid

lemma IPT_zero (w : World) : systems.IncreaseProgressTracker 0 w = w := by
  have hpt : ∀ o : Option ProgressTracker,
      o.map (fun pt => { pt with cur := pt.cur + 0 }) = o := by
    intro o
    cases o with
    | none => rfl
    | some pt => cases pt; simp
  unfold systems.IncreaseProgressTracker
  rw [map_eq_self_of _ _ (fun t _ => by rw [hpt]),
    map_eq_self_of _ _ (fun c _ => by rw [hpt]),
    map_eq_self_of _ _ (fun x _ => by rw [hpt])]

lemma gen_zero (cfg : Config) (w : World) (h : w.genAcc < cfg.GuestFrequency) :
    systems.GuestGenerator cfg 0 w = w := by
  unfold systems.GuestGenerator
  rw [if_neg (show ¬ cfg.GuestFrequency ≤ w.genAcc + 0 from by
    rw [add_zero]; exact not_le.mpr h)]
  rw [show w.genAcc + 0 = w.genAcc from add_zero _]

lemma assignChef_quiescent (w : World)
    (h : (∀ t ∈ w.tables, t.status ≠ TableStatus.Unassigned) ∨
      (∀ c ∈ w.chefs, c.status ≠ ChefStatus.Idle)) :
    systems.AssignChef w = w := by
  rcases h with h | h
  · unfold systems.AssignChef
    rw [show w.tables.filter (fun t => t.status = TableStatus.Unassigned) = [] from
      List.filter_eq_nil_iff.mpr (fun t ht => by simpa using h t ht)]
    rfl
  · exact assignChef_no_idle w h

lemma createPlate_fold_id (cfg : Config) (w : World) :
    ∀ (cs : List Chef) (acc : List Chef × List Plate × Nat),
      (∀ c ∈ cs, ¬(c.status = ChefStatus.Cooking ∧ c.plate = none)) →
      cs.foldl (systems.createPlateStep cfg w) acc = (acc.1 ++ cs, acc.2.1, acc.2.2) := by
  intro cs
  induction cs with
  | nil => intro acc _; simp
  | cons c t ih =>
    intro acc h
    rw [List.foldl_cons]
    have hc : systems.createPlateStep cfg w acc c = (acc.1 ++ [c], acc.2.1, acc.2.2) := by
      unfold systems.createPlateStep
      rw [if_neg (h c (List.mem_cons_self c t))]
    rw [hc, ih _ (fun c' hc' => h c' (List.mem_cons_of_mem c hc'))]
    simp

lemma createPlate_quiescent (cfg : Config) (w : World)
    (h : ∀ c ∈ w.chefs, ¬(c.status = ChefStatus.Cooking ∧ c.plate = none)) :
    systems.CreatePlate cfg w = w := by
  have hf := createPlate_fold_id cfg w w.chefs ([], [], w.nextId) h
  show { w with
    chefs := (w.chefs.foldl (systems.createPlateStep cfg w) ([], [], w.nextId)).1,
    plates := w.plates ++ (w.chefs.foldl (systems.createPlateStep cfg w) ([], [], w.nextId)).2.1,
    nextId := (w.chefs.foldl (systems.createPlateStep cfg w) ([], [], w.nextId)).2.2 } = w
  rw [hf]
  simp

lemma preparePlate_quiescent (cfg : Config) (w : World)
    (h : ∀ c ∈ w.chefs, timerPastExpiry c.timer = false) :
    systems.PreparePlate cfg w = w := by
  unfold systems.PreparePlate
  apply foldl_id_of
  intro c hc
  have hcm : c ∈ w.chefs := List.mem_of_mem_filter hc
  have hfalse := h c hcm
  unfold systems.preparePlateStep
  split
  · rename_i pt pid heq1 heq2
    rw [heq1] at hfalse
    have hn : ¬ pt.expire < pt.cur := by simpa [timerPastExpiry] using hfalse
    rw [if_neg hn]
  · rfl

lemma assignWaiter_quiescent (w : World)
    (h : (∀ p ∈ w.plates,
        ¬(p.status = PlateStatus.Ready ∧ p.table ≠ none ∧ p.waiter = none)) ∨
      (∀ x ∈ w.waiters, x.status ≠ WaiterStatus.Idle)) :
    systems.AssignWaiter w = w := by
  rcases h with h | h
  · unfold systems.AssignWaiter
    rw [show w.plates.filter (fun p =>
        p.status = PlateStatus.Ready ∧ p.table ≠ none ∧ p.waiter = none) = [] from
      List.filter_eq_nil_iff.mpr (fun p hp => by simpa using h p hp)]
    rfl
  · exact assignWaiter_no_idle w h

lemma happiness_zero (cfg : Config) (w : World)
    (h : ∀ t ∈ w.tables, 0 ≤ t.happiness.getD 0) :
    systems.HappinessCooldown cfg 0 w = w := by
  unfold systems.HappinessCooldown
  rw [map_eq_self_of]
  intro t ht
  by_cases hd : t.status ≠ TableStatus.Dining
  · rw [if_pos hd]
    have hmap : t.happiness.map (fun h0 =>
        let h2 := h0 - cfg.HappinessCooldown * 0
        if h2 < 0 then 0 else h2) = t.happiness := by
      cases hh : t.happiness with
      | none => rfl
      | some hv =>
        have h0 : 0 ≤ hv := by
          have := h t ht
          rw [hh] at this
          simpa using this
        show some (if hv - cfg.HappinessCooldown * 0 < 0 then 0
          else hv - cfg.HappinessCooldown * 0) = some hv
        rw [mul_zero, sub_zero, if_neg (not_lt.mpr h0)]
    rw [hmap]
  · rw [if_neg hd]

lemma temperature_zero (cfg : Config) (w : World) :
    systems.TemperatureCooldown cfg 0 w = w := by
  unfold systems.TemperatureCooldown
  rw [map_eq_self_of]
  intro p _
  have hmap : p.temp.map (fun t =>
      t - (t - cfg.RoomTemperature) * cfg.PlateCooldownFactor * 0) = p.temp := by
    cases p.temp with
    | none => rfl
    | some tv =>
      show some (tv - (tv - cfg.RoomTemperature) * cfg.PlateCooldownFactor * 0) = some tv
      rw [mul_zero, sub_zero]
  rw [hmap]

lemma waiterToKitchen_zero (cfg : Config) (w : World)
    (h : ∀ x ∈ w.waiters, x.status = WaiterStatus.WalkingToKitchen → 0 < x.dist) :
    systems.WaiterToKitchen cfg 0 w = w := by
  unfold systems.WaiterToKitchen
  rw [map_eq_self_of]
  intro x hx
  by_cases hs : x.status = WaiterStatus.WalkingToKitchen
  · rw [if_pos hs]
    show (if x.dist - cfg.WaiterSpeed * 0 ≤ 0 then _ else
      { x with dist := x.dist - cfg.WaiterSpeed * 0 }) = x
    rw [if_neg (show ¬ x.dist - cfg.WaiterSpeed * 0 ≤ 0 from by
      rw [mul_zero, sub_zero]; exact not_le.mpr (h x hx hs))]
    rw [show x.dist - cfg.WaiterSpeed * 0 = x.dist from by rw [mul_zero, sub_zero]]
  · rw [if_neg hs]

lemma waiterToTable_zero (cfg : Config) (w : World)
    (hnd : (w.waiters.map Waiter.id).Nodup)
    (h : ∀ x ∈ w.waiters, x.status = WaiterStatus.WalkingToTable →
      systems.timerExpired x.timer = false) :
    systems.WaiterToTable cfg 0 w = w := by
  unfold systems.WaiterToTable
  apply foldl_id_of
  intro x hx
  have hxm : x ∈ w.waiters := List.mem_of_mem_filter hx
  have hxp := (List.mem_filter.mp hx).2
  have hst : x.status = WaiterStatus.WalkingToTable := by
    have := of_decide_eq_true hxp
    exact this.1
  have hfalse := h x hxm hst
  unfold systems.waiterToTableStep
  cases htm : x.timer with
  | none => rfl
  | some pt =>
    rw [htm] at hfalse
    have hn : ¬ pt.expire ≤ pt.cur := by simpa [systems.timerExpired] using hfalse
    simp only []
    rw [if_neg hn]
    have hmap : w.waiters.map (fun y =>
        if y.id = x.id then { y with dist := x.dist + 0 * cfg.WaiterSpeed } else y) =
        w.waiters := by
      apply map_eq_self_of
      intro y hy
      by_cases hid : y.id = x.id
      · rw [if_pos hid, eq_of_idOf_mem Waiter.id hnd hxm hy hid]
        rw [show x.dist + 0 * cfg.WaiterSpeed = x.dist from by rw [zero_mul, add_zero]]
      · rw [if_neg hid]
    rw [hmap]

lemma guestsLeaving_quiescent (w : World)
    (h : ∀ t ∈ w.tables, t.status = TableStatus.Dining →
      systems.timerExpired t.timer = false) :
    systems.GuestsLeaving w = w := by
  have hfil : w.tables.filter (fun t =>
      t.status = TableStatus.Dining ∧ systems.timerExpired t.timer) = [] := by
    rw [List.filter_eq_nil_iff]
    intro t ht hcond
    have hc := of_decide_eq_true hcond
    rw [h t ht hc.1] at hc
    exact Bool.false_ne_true hc.2
  show { w with
    tables := w.tables.map (fun t =>
      if t.status = TableStatus.Dining ∧ systems.timerExpired t.timer then
        { t with happiness := none }
      else t),
    guests := w.guests.filter (fun g => ¬ g.table ∈
      ((w.tables.filter (fun t =>
        t.status = TableStatus.Dining ∧ systems.timerExpired t.timer)).map
          (fun t => t.id))) } = w
  rw [hfil]
  rw [map_eq_self_of _ _ (fun t ht => by
    rw [if_neg]
    intro hcond
    rw [h t ht hcond.1] at hcond
    exact Bool.false_ne_true hcond.2)]
  rw [List.filter_eq_self.mpr (fun g _ => by simp)]

lemma dine_quiescent (w : World)
    (h : ∀ t ∈ w.tables, t.status = TableStatus.Dining →
      systems.timerExpired t.timer = false) :
    systems.Dine w = w := by
  have hfil : w.tables.filter (fun t =>
      t.status = TableStatus.Dining ∧ systems.timerExpired t.timer) = [] := by
    rw [List.filter_eq_nil_iff]
    intro t ht hcond
    have hc := of_decide_eq_true hcond
    rw [h t ht hc.1] at hc
    exact Bool.false_ne_true hc.2
  show { w with
    tables := w.tables.map (fun t =>
      if t.status = TableStatus.Dining ∧ systems.timerExpired t.timer then
        { t with status := TableStatus.Unoccupied, timer := none, plate := none }
      else
        match t.plate with
        | some pid =>
          if pid ∈ ((w.tables.filter (fun t =>
              t.status = TableStatus.Dining ∧ systems.timerExpired t.timer)).filterMap
                (fun t => t.plate)) then
            { t with plate := none }
          else t
        | none => t),
    plates := w.plates.filter (fun p => ¬ p.id ∈
      ((w.tables.filter (fun t =>
        t.status = TableStatus.Dining ∧ systems.timerExpired t.timer)).filterMap
          (fun t => t.plate))),
    chefs := w.chefs.map (fun c =>
      match c.plate with
      | some pid =>
        if pid ∈ ((w.tables.filter (fun t =>
            t.status = TableStatus.Dining ∧ systems.timerExpired t.timer)).filterMap
              (fun t => t.plate)) then
          { c with plate := none }
        else c
      | none => c),
    waiters := w.waiters.map (fun x =>
      match x.plate with
      | some pid =>
        if pid ∈ ((w.tables.filter (fun t =>
            t.status = TableStatus.Dining ∧ systems.timerExpired t.timer)).filterMap
              (fun t => t.plate)) then
          { x with plate := none }
        else x
      | none => x) } = w
  rw [hfil]
  rw [map_eq_self_of _ _ (fun t ht => by
    rw [if_neg]
    · cases t.plate <;> simp
    · intro hcond
      rw [h t ht hcond.1] at hcond
      exact Bool.false_ne_true hcond.2)]
  rw [map_eq_self_of _ _ (fun c _ => by cases c.plate <;> simp)]
  rw [map_eq_self_of _ _ (fun x _ => by cases x.plate <;> simp)]
  rw [List.filter_eq_self.mpr (fun p _ => by simp)]

lemma runTicks_cons (cfg : Config) (d : ℚ) (dts : List ℚ) (w : World) :
    runTicks cfg (d :: dts) w = runTicks cfg dts (tick cfg d w) := by
  unfold runTicks
  rw [List.foldl_cons]

/-- C4 (amended): a tick with delta time 0 is the identity on every
quiescent state — one with no pending chef/table or waiter/plate match, no
plate creation due, no expired tracker, no arrived-but-unserviced waiter,
nonnegative happiness, and the generator interval not yet reached — for any
number of such ticks.  The initial state is quiescent (see C4_witness).
The unrestricted claim is false: the matching systems are time-independent,
so a reachable state with a pending match changes under a zero-delta tick
(C4_counterexample). -/
theorem C4_zero_delta_noop_on_quiescent (cfg : Config) (w : World) (hq : Quiescent cfg w) :
    ∀ n : Nat, runTicks cfg (List.replicate n 0) w = w := by
  obtain ⟨hnd, hacc, hchef, hcook, hexp, hwait, hhap, hwk, hwt, hdin⟩ := hq
  have hstep : tick cfg 0 w = w := by
    rw [tick_eq, IPT_zero, gen_zero cfg w hacc, assignChef_quiescent w hchef,
      createPlate_quiescent cfg w hcook,
      preparePlate_quiescent cfg w (fun c hc => hexp c hc),
      assignWaiter_quiescent w hwait, happiness_zero cfg w hhap, temperature_zero cfg w,
      waiterToKitchen_zero cfg w hwk, waiterToTable_zero cfg w hnd hwt,
      guestsLeaving_quiescent w hdin, dine_quiescent w hdin]
  intro n
  induction n with
  | zero => rfl
  | succ m ih =>
    rw [List.replicate_succ, runTicks_cons, hstep, ih]

/-- C4 counterexample: wC4 is reachable from start-up (three 5-second
ticks) and has an Unassigned table together with an Idle chef, so the
zero-delta tick performs the pending assignment and changes the state. -/
theorem C4_counterexample : Reachable cfgC4 wC4 ∧ tick cfgC4 0 wC4 ≠ wC4 :=
  ⟨Reachable.step 5 (Reachable.step 5 (Reachable.step 5 (Reachable.start [0, 0, 0, 0])
      (by norm_num)) (by norm_num)) (by norm_num),
    by with_unfolding_all decide⟩

/-- Witness for C4: the start-up state of the source configuration is
quiescent and three zero-delta ticks leave it unchanged. -/
theorem C4_witness :
    Quiescent defaultConfig (init defaultConfig []) ∧
      runTicks defaultConfig (List.replicate 3 0) (init defaultConfig []) =
        init defaultConfig [] :=
  ⟨by with_unfolding_all decide,
   C4_zero_delta_noop_on_quiescent defaultConfig (init defaultConfig [])
     (by with_unfolding_all decide) 3⟩

/-! ### Claim C8: happiness stays in the unit interval -/

lemma clamp_unit {h0 pen : ℚ} (hb0 : 0 ≤ h0) (hb1 : h0 ≤ 1) (hpen : 0 ≤ pen) :
    0 ≤ (if h0 - pen < 0 then 0 else h0 - pen) ∧
      (if h0 - pen < 0 then 0 else h0 - pen) ≤ 1 := by
  split
  · exact ⟨le_refl 0, by norm_num⟩
  · next hneg =>
    constructor
    · linarith [not_lt.mp hneg]
    · linarith

lemma happyInv_tables_eq {v w : World} (h : HappyInv w) (he : v.tables = w.tables) :
    HappyInv v := by
  intro t ht hv hh
  rw [he] at ht
  exact h t ht hv hh

lemma happy_IPT (dt : ℚ) (w : World) (hw : HappyInv w) :
    HappyInv (systems.IncreaseProgressTracker dt w) := by
  intro t' ht' hv hh
  obtain ⟨t, ht, rfl⟩ := List.mem_map.mp ht'
  exact hw t ht hv hh

lemma happy_spawnParty (cfg : Config) (w : World) (hw : HappyInv w) :
    HappyInv (systems.spawnParty cfg w) := by
  unfold systems.spawnParty
  split
  · exact hw
  · rename_i t0 heq
    intro t' ht' hv hh
    obtain ⟨t, ht, rfl⟩ := List.mem_map.mp ht'
    by_cases hid : t.id = t0.id
    · rw [if_pos hid] at hh
      have h1 : (1 : ℚ) = hv := by simpa using hh
      rw [← h1]
      norm_num
    · rw [if_neg hid] at hh
      exact hw t ht hv hh

lemma happy_gen (cfg : Config) (dt : ℚ) (w : World) (hw : HappyInv w) :
    HappyInv (systems.GuestGenerator cfg dt w) := by
  unfold systems.GuestGenerator
  split
  · exact happyInv_tables_eq (happy_spawnParty cfg w hw) rfl
  · exact happyInv_tables_eq hw rfl

lemma happy_assignChefStep (v : World) (t0 : Table) (hv : HappyInv v) :
    HappyInv (systems.assignChefStep v t0) := by
  unfold systems.assignChefStep
  split
  · exact hv
  · intro t' ht' h0 hh
    obtain ⟨t, ht, rfl⟩ := List.mem_map.mp ht'
    by_cases hid : t.id = t0.id
    · rw [if_pos hid] at hh
      exact hv t ht h0 hh
    · rw [if_neg hid] at hh
      exact hv t ht h0 hh

lemma happy_assignChef (w : World) (hw : HappyInv w) :
    HappyInv (systems.AssignChef w) := by
  unfold systems.AssignChef
  exact foldl_preserve HappyInv systems.assignChefStep _ w
    (fun v t _ hv => happy_assignChefStep v t hv) hw

lemma happy_createPlate (cfg : Config) (w : World) (hw : HappyInv w) :
    HappyInv (systems.CreatePlate cfg w) :=
  happyInv_tables_eq hw rfl

lemma happy_preparePlateStep (cfg : Config) (v : World) (c : Chef) (hv : HappyInv v) :
    HappyInv (systems.preparePlateStep cfg v c) := by
  unfold systems.preparePlateStep
  repeat' split
  all_goals first
    | exact hv
    | exact happyInv_tables_eq hv rfl

lemma happy_preparePlate (cfg : Config) (w : World) (hw : HappyInv w) :
    HappyInv (systems.PreparePlate cfg w) := by
  unfold systems.PreparePlate
  exact foldl_preserve HappyInv (systems.preparePlateStep cfg) _ w
    (fun v c _ hv => happy_preparePlateStep cfg v c hv) hw

lemma happy_assignWaiterStep (v : World) (p : Plate) (hv : HappyInv v) :
    HappyInv (systems.assignWaiterStep v p) := by
  unfold systems.assignWaiterStep
  split
  · exact hv
  · exact happyInv_tables_eq hv rfl

lemma happy_assignWaiter (w : World) (hw : HappyInv w) :
    HappyInv (systems.AssignWaiter w) := by
  unfold systems.AssignWaiter
  exact foldl_preserve HappyInv systems.assignWaiterStep _ w
    (fun v p _ hv => happy_assignWaiterStep v p hv) hw

lemma happy_cooldown (cfg : Config) (dt : ℚ) (hc : 0 ≤ cfg.HappinessCooldown)
    (hdt : 0 ≤ dt) (w : World) (hw : HappyInv w) :
    HappyInv (systems.HappinessCooldown cfg dt w) := by
  intro t' ht' hv hh
  obtain ⟨t, ht, rfl⟩ := List.mem_map.mp ht'
  by_cases hd : t.status ≠ TableStatus.Dining
  · rw [if_pos hd] at hh
    cases hto : t.happiness with
    | none => rw [hto] at hh; simp at hh
    | some h0 =>
      rw [hto] at hh
      obtain ⟨hb0, hb1⟩ := hw t ht h0 hto
      have hhv : (if h0 - cfg.HappinessCooldown * dt < 0 then 0
          else h0 - cfg.HappinessCooldown * dt) = hv := by
        simpa using hh
      rw [← hhv]
      exact clamp_unit hb0 hb1 (mul_nonneg hc hdt)
  · rw [if_neg hd] at hh
    exact hw t ht hv hh

lemma happy_temperature (cfg : Config) (dt : ℚ) (w : World) (hw : HappyInv w) :
    HappyInv (systems.TemperatureCooldown cfg dt w) :=
  happyInv_tables_eq hw rfl

lemma happy_waiterToKitchen (cfg : Config) (dt : ℚ) (w : World) (hw : HappyInv w) :
    HappyInv (systems.WaiterToKitchen cfg dt w) :=
  happyInv_tables_eq hw rfl

lemma happy_waiterToTableStep (cfg : Config) (dt : ℚ)
    (hp : 0 ≤ cfg.ColdPlateHappinessPenalty) (v : World) (x : Waiter) (hv : HappyInv v) :
    HappyInv (systems.waiterToTableStep cfg dt v x) := by
  unfold systems.waiterToTableStep
  cases htm : x.timer with
  | none => exact hv
  | some pt =>
    simp only []
    split
    · cases hta : x.table with
      | none => exact happyInv_tables_eq hv rfl
      | some tid =>
        cases hpl : x.plate with
        | none => exact happyInv_tables_eq hv rfl
        | some pid =>
          simp only []
          cases hgt : (v.tables.filter (fun t => t.id = tid)).getLast? with
          | none => exact happyInv_tables_eq hv rfl
          | some t1 =>
            cases hgp : (v.plates.filter (fun p => p.id = pid)).getLast? with
            | none => exact happyInv_tables_eq hv rfl
            | some p =>
              simp only []
              intro t' ht' h0 hh
              obtain ⟨t, ht, rfl⟩ := List.mem_map.mp ht'
              by_cases hid : t.id = tid
              · rw [if_pos hid] at hh
                rcases htemp : p.temp with _ | tv
                · rw [htemp] at hh
                  exact hv t ht h0 hh
                · rw [htemp] at hh
                  simp only [] at hh
                  by_cases hcold : tv < cfg.PlateTemperatureThreshold
                  · rw [if_pos hcold] at hh
                    have hh2 : Option.map (fun h =>
                        if h - cfg.ColdPlateHappinessPenalty < 0 then 0
                        else h - cfg.ColdPlateHappinessPenalty) t.happiness = some h0 := hh
                    cases hto : t.happiness with
                    | none => rw [hto] at hh2; simp at hh2
                    | some h1 =>
                      rw [hto] at hh2
                      obtain ⟨hb0, hb1⟩ := hv t ht h1 hto
                      have hhv : (if h1 - cfg.ColdPlateHappinessPenalty < 0 then 0
                          else h1 - cfg.ColdPlateHappinessPenalty) = h0 := by
                        simpa using hh2
                      rw [← hhv]
                      exact clamp_unit hb0 hb1 hp
                  · rw [if_neg hcold] at hh
                    exact hv t ht h0 hh
              · rw [if_neg hid] at hh
                exact hv t ht h0 hh
    · exact happyInv_tables_eq hv rfl

lemma happy_waiterToTable (cfg : Config) (dt : ℚ)
    (hp : 0 ≤ cfg.ColdPlateHappinessPenalty) (w : World) (hw : HappyInv w) :
    HappyInv (systems.WaiterToTable cfg dt w) := by
  unfold systems.WaiterToTable
  exact foldl_preserve HappyInv (systems.waiterToTableStep cfg dt) _ w
    (fun v x _ hv => happy_waiterToTableStep cfg dt hp v x hv) hw

lemma happy_guestsLeaving (w : World) (hw : HappyInv w) :
    HappyInv (systems.GuestsLeaving w) := by
  intro t' ht' hv hh
  obtain ⟨t, ht, rfl⟩ := List.mem_map.mp ht'
  by_cases hc : t.status = TableStatus.Dining ∧ systems.timerExpired t.timer
  · rw [if_pos hc] at hh
    simp at hh
  · rw [if_neg hc] at hh
    exact hw t ht hv hh

lemma happy_dine (w : World) (hw : HappyInv w) : HappyInv (systems.Dine w) := by
  intro t' ht' hv hh
  obtain ⟨t, ht, rfl⟩ := List.mem_map.mp ht'
  by_cases hc : t.status = TableStatus.Dining ∧ systems.timerExpired t.timer
  · rw [if_pos hc] at hh
    exact hw t ht hv hh
  · rw [if_neg hc] at hh
    rcases hpl : t.plate with _ | pid
    · rw [hpl] at hh
      exact hw t ht hv hh
    · rw [hpl] at hh
      simp only [] at hh
      by_cases hdp : pid ∈ ((w.tables.filter (fun t =>
          t.status = TableStatus.Dining ∧ systems.timerExpired t.timer)).filterMap
            (fun t => t.plate))
      · rw [if_pos hdp] at hh
        exact hw t ht hv hh
      · rw [if_neg hdp] at hh
        exact hw t ht hv hh

lemma happy_tick (cfg : Config) (dt : ℚ) (hc : 0 ≤ cfg.HappinessCooldown)
    (hp : 0 ≤ cfg.ColdPlateHappinessPenalty) (hdt : 0 ≤ dt) (w : World)
    (hw : HappyInv w) : HappyInv (tick cfg dt w) := by
  rw [tick_eq]
  exact happy_dine _ (happy_guestsLeaving _ (happy_waiterToTable cfg dt hp _
    (happy_waiterToKitchen cfg dt _ (happy_temperature cfg dt _
      (happy_cooldown cfg dt hc hdt _ (happy_assignWaiter _
        (happy_preparePlate cfg _ (happy_createPlate cfg _
          (happy_assignChef _ (happy_gen cfg dt _
            (happy_IPT dt w hw)))))))))))

lemma happy_init (cfg : Config) (rng : List Nat) : HappyInv (init cfg rng) := by
  intro t ht hv hh
  obtain ⟨ip, _, rfl⟩ := List.mem_map.mp ht
  simp at hh

/-- C8: in every reachable state (nonnegative happiness-decay rate and
cold-plate penalty, nonnegative tick deltas), every table's Happiness value
lies in [0, 1]: it is created at 1 by the demand generator, only ever
reduced — by the waiting decay and the cold-plate penalty, both clamped at
zero — and never pushed above 1 or below 0 by any system. -/
theorem C8_happiness_in_unit_interval (cfg : Config)
    (hc : 0 ≤ cfg.HappinessCooldown) (hp : 0 ≤ cfg.ColdPlateHappinessPenalty)
    (w : World) (hw : Reachable cfg w) : HappyInv w := by
  induction hw with
  | start rng => exact happy_init cfg rng
  | step dt _ hdt ih => exact happy_tick cfg dt hc hp hdt _ ih

/-- Witness for C8 at the start-up state of the source configuration. -/
theorem C8_witness : HappyInv (init defaultConfig [2, 3]) :=
  C8_happiness_in_unit_interval defaultConfig (by norm_num [defaultConfig])
    (by norm_num [defaultConfig]) (init defaultConfig [2, 3])
    (Reachable.start [2, 3])

/-! ### Claim C10: waiter distance accounting -/

/-- Distance nonnegativity as a property of a waiter list. -/
def distListInv (ws : List Waiter) : Prop := ∀ x ∈ ws, 0 ≤ x.dist

lemma distListInv_map (ws : List Waiter) (f : Waiter → Waiter)
    (hf : ∀ y ∈ ws, 0 ≤ (f y).dist) : distListInv (ws.map f) := by
  intro y' hy'
  obtain ⟨y, hy, rfl⟩ := List.mem_map.mp hy'
  exact hf y hy

lemma distInv_waiters_eq {v w : World} (h : DistInv w) (he : v.waiters = w.waiters) :
    DistInv v := by
  intro x hx
  rw [he] at hx
  exact h x hx

lemma dist_IPT (dt : ℚ) (w : World) (hw : DistInv w) :
    DistInv (systems.IncreaseProgressTracker dt w) :=
  distListInv_map w.waiters _ (fun y hy => hw y hy)

lemma dist_gen (cfg : Config) (dt : ℚ) (w : World) (hw : DistInv w) :
    DistInv (systems.GuestGenerator cfg dt w) := by
  unfold systems.GuestGenerator
  split
  · exact distInv_waiters_eq hw (spawnParty_waiters cfg w)
  · exact distInv_waiters_eq hw rfl

lemma dist_assignChef (w : World) (hw : DistInv w) : DistInv (systems.AssignChef w) := by
  unfold systems.AssignChef
  refine foldl_preserve DistInv systems.assignChefStep _ w ?_ hw
  intro v t _ hv
  unfold systems.assignChefStep
  split
  · exact hv
  · exact distInv_waiters_eq hv rfl

lemma dist_createPlate (cfg : Config) (w : World) (hw : DistInv w) :
    DistInv (systems.CreatePlate cfg w) :=
  distInv_waiters_eq hw rfl

lemma dist_preparePlate (cfg : Config) (w : World) (hw : DistInv w) :
    DistInv (systems.PreparePlate cfg w) := by
  unfold systems.PreparePlate
  refine foldl_preserve DistInv (systems.preparePlateStep cfg) _ w ?_ hw
  intro v c _ hv
  unfold systems.preparePlateStep
  repeat' split
  all_goals first
    | exact hv
    | exact distInv_waiters_eq hv rfl

lemma dist_assignWaiter (w : World) (hw : DistInv w) : DistInv (systems.AssignWaiter w) := by
  unfold systems.AssignWaiter
  refine foldl_preserve DistInv systems.assignWaiterStep _ w ?_ hw
  intro v p _ hv
  unfold systems.assignWaiterStep
  split
  · exact hv
  · rename_i x0 heq
    exact distListInv_map v.waiters _ (fun y hy => by
      by_cases hid : y.id = x0.id
      · rw [if_pos hid]
        exact hv y hy
      · rw [if_neg hid]
        exact hv y hy)

lemma dist_happiness (cfg : Config) (dt : ℚ) (w : World) (hw : DistInv w) :
    DistInv (systems.HappinessCooldown cfg dt w) :=
  distInv_waiters_eq hw rfl

lemma dist_temperature (cfg : Config) (dt : ℚ) (w : World) (hw : DistInv w) :
    DistInv (systems.TemperatureCooldown cfg dt w) :=
  distInv_waiters_eq hw rfl

lemma dist_waiterToKitchen (cfg : Config) (dt : ℚ) (w : World) (hw : DistInv w) :
    DistInv (systems.WaiterToKitchen cfg dt w) := by
  apply distListInv_map
  intro y hy
  by_cases hs : y.status = WaiterStatus.WalkingToKitchen
  · rw [if_pos hs]
    simp only []
    by_cases hd : y.dist - cfg.WaiterSpeed * dt ≤ 0
    · rw [if_pos hd]
      cases systems.findPlateForTable w y.table <;>
        cases y.table.bind (fun tid => (w.tables.filter (fun t => t.id = tid)).getLast?) <;>
        norm_num
    · rw [if_neg hd]
      show 0 ≤ y.dist - cfg.WaiterSpeed * dt
      linarith [not_le.mp hd]
  · rw [if_neg hs]
    exact hw y hy

lemma dist_waiterToTableStep (cfg : Config) (dt : ℚ) (hsp : 0 ≤ cfg.WaiterSpeed)
    (hdt : 0 ≤ dt) (v : World) (x : Waiter) (hx0 : 0 ≤ x.dist) (hv : DistInv v) :
    DistInv (systems.waiterToTableStep cfg dt v x) := by
  have hd : 0 ≤ x.dist + dt * cfg.WaiterSpeed :=
    add_nonneg hx0 (mul_nonneg hdt hsp)
  unfold systems.waiterToTableStep
  cases htm : x.timer with
  | none => exact hv
  | some pt =>
    simp only []
    split
    · cases hta : x.table with
      | none =>
        exact distListInv_map v.waiters _ (fun y hy => by
          by_cases hid : y.id = x.id
          · rw [if_pos hid]; exact hd
          · rw [if_neg hid]; exact hv y hy)
      | some tid =>
        cases hpl : x.plate with
        | none =>
          exact distListInv_map v.waiters _ (fun y hy => by
            by_cases hid : y.id = x.id
            · rw [if_pos hid]; exact hd
            · rw [if_neg hid]; exact hv y hy)
        | some pid =>
          simp only []
          cases hgt : (v.tables.filter (fun t => t.id = tid)).getLast? with
          | none =>
            exact distListInv_map v.waiters _ (fun y hy => by
              by_cases hid : y.id = x.id
              · rw [if_pos hid]; exact hd
              · rw [if_neg hid]; exact hv y hy)
          | some t1 =>
            cases hgp : (v.plates.filter (fun p => p.id = pid)).getLast? with
            | none =>
              exact distListInv_map v.waiters _ (fun y hy => by
                by_cases hid : y.id = x.id
                · rw [if_pos hid]; exact hd
                · rw [if_neg hid]; exact hv y hy)
            | some p1 =>
              simp only []
              exact distListInv_map v.waiters _ (fun y hy => by
                by_cases hid : y.id = x.id
                · rw [if_pos hid]; exact hd
                · rw [if_neg hid]; exact hv y hy)
    · exact distListInv_map v.waiters _ (fun y hy => by
        by_cases hid : y.id = x.id
        · rw [if_pos hid]; exact hd
        · rw [if_neg hid]; exact hv y hy)

lemma dist_waiterToTable (cfg : Config) (dt : ℚ) (hsp : 0 ≤ cfg.WaiterSpeed)
    (hdt : 0 ≤ dt) (w : World) (hw : DistInv w) :
    DistInv (systems.WaiterToTable cfg dt w) := by
  unfold systems.WaiterToTable
  refine foldl_preserve DistInv (systems.waiterToTableStep cfg dt) _ w ?_ hw
  intro v x hxl hv
  exact dist_waiterToTableStep cfg dt hsp hdt v x
    (hw x (List.mem_of_mem_filter hxl)) hv

lemma dist_guestsLeaving (w : World) (hw : DistInv w) : DistInv (systems.GuestsLeaving w) :=
  distInv_waiters_eq hw rfl

lemma dist_dine (w : World) (hw : DistInv w) : DistInv (systems.Dine w) := by
  apply distListInv_map
  intro y hy
  cases y.plate with
  | none => exact hw y hy
  | some pid =>
    simp only []
    split
    · exact hw y hy
    · exact hw y hy

lemma dist_tick (cfg : Config) (dt : ℚ) (hsp : 0 ≤ cfg.WaiterSpeed) (hdt : 0 ≤ dt)
    (w : World) (hw : DistInv w) : DistInv (tick cfg dt w) := by
  rw [tick_eq]
  exact dist_dine _ (dist_guestsLeaving _ (dist_waiterToTable cfg dt hsp hdt _
    (dist_waiterToKitchen cfg dt _ (dist_temperature cfg dt _
      (dist_happiness cfg dt _ (dist_assignWaiter _
        (dist_preparePlate cfg _ (dist_createPlate cfg _
          (dist_assignChef _ (dist_gen cfg dt _
            (dist_IPT dt w hw)))))))))))

lemma dist_init (cfg : Config) (rng : List Nat) : DistInv (init cfg rng) := by
  intro x hx
  obtain ⟨i, _, rfl⟩ := List.mem_map.mp hx
  norm_num

/-! ### Claim C3: plate creation, cooking expiry, and Scenario A -/

lemma createPlate_fold_mono (cfg : Config) (w : World) :
    ∀ (cs : List Chef) (acc : List Chef × List Plate × Nat) (c0 : Chef),
      c0 ∈ acc.1 → c0 ∈ (cs.foldl (systems.createPlateStep cfg w) acc).1 := by
  intro cs
  induction cs with
  | nil => intro acc c0 h; exact h
  | cons c t ih =>
    intro acc c0 h
    rw [List.foldl_cons]
    apply ih
    unfold systems.createPlateStep
    split
    · exact List.mem_append_left _ h
    · exact List.mem_append_left _ h

lemma createPlate_fold_mem (cfg : Config) (w : World) :
    ∀ (cs : List Chef) (acc : List Chef × List Plate × Nat) (c : Chef),
      c ∈ cs → c.status = ChefStatus.Cooking → c.plate = none →
      ∃ c' ∈ (cs.foldl (systems.createPlateStep cfg w) acc).1, c'.id = c.id ∧
        c'.timer = some ⟨0, (guestCount w c.table : ℚ) * cfg.PlatePreparationTime⟩ ∧
        c'.plate ≠ none ∧ c'.status = ChefStatus.Cooking := by
  intro cs
  induction cs with
  | nil => intro acc c h; exact absurd h (List.not_mem_nil c)
  | cons c0 t ih =>
    intro acc c hmem hcook hpl
    rw [List.foldl_cons]
    rcases List.mem_cons.mp hmem with rfl | hmt
    · have hstep : systems.createPlateStep cfg w acc c =
          (acc.1 ++ [{ c with plate := some acc.2.2, timer := some ⟨0, (guestCount w c.table : ℚ) * cfg.PlatePreparationTime⟩ }],
           acc.2.1 ++ [{ id := acc.2.2, status := PlateStatus.Preparing, table := none, waiter := none, temp := none }],
           acc.2.2 + 1) := by
        unfold systems.createPlateStep
        rw [if_pos ⟨hcook, hpl⟩]
      refine ⟨{ c with plate := some acc.2.2, timer := some ⟨0, (guestCount w c.table : ℚ) * cfg.PlatePreparationTime⟩ },
        ?_, rfl, rfl, by simp, hcook⟩
      rw [hstep]
      apply createPlate_fold_mono
      exact List.mem_append_right _ (by simp)
    · exact ih _ c hmt hcook hpl

lemma createPlate_inits (cfg : Config) (w : World) (c : Chef)
    (hc : c ∈ w.chefs) (hcook : c.status = ChefStatus.Cooking) (hpl : c.plate = none) :
    ∃ c' ∈ (systems.CreatePlate cfg w).chefs, c'.id = c.id ∧
      c'.timer = some ⟨0, (guestCount w c.table : ℚ) * cfg.PlatePreparationTime⟩ ∧
      c'.plate ≠ none ∧ c'.status = ChefStatus.Cooking :=
  createPlate_fold_mem cfg w w.chefs ([], [], w.nextId) c hc hcook hpl

lemma ids_ne_of_split {α : Type} (idOf : α → Nat) {l l1 l2 : List α} {x : α}
    (hnd : (l.map idOf).Nodup) (hsplit : l = l1 ++ x :: l2) :
    (∀ y ∈ l1, idOf y ≠ idOf x) ∧ (∀ y ∈ l2, idOf y ≠ idOf x) := by
  subst hsplit
  rw [List.map_append, List.map_cons, List.nodup_append] at hnd
  obtain ⟨h1, h2, hdisj⟩ := hnd
  constructor
  · intro y hy hEq
    exact hdisj (List.mem_map_of_mem idOf hy) (by rw [hEq]; exact List.mem_cons_self _ _)
  · intro y hy hEq
    have hx2 := (List.nodup_cons.mp h2).1
    apply hx2
    rw [← hEq]
    exact List.mem_map_of_mem idOf hy

lemma preparePlateStep_frame (cfg : Config) (v : World) (c2 : Chef) (A : Chef) (B : Plate)
    (hidne : c2.id ≠ A.id) (hplne : c2.plate ≠ some B.id)
    (hA : A ∈ v.chefs) (hB : B ∈ v.plates) :
    A ∈ (systems.preparePlateStep cfg v c2).chefs ∧
      B ∈ (systems.preparePlateStep cfg v c2).plates := by
  unfold systems.preparePlateStep
  split
  · rename_i pt2 pid2 heq1 heq2
    split
    · constructor
      · have h1 := List.mem_map_of_mem (fun y : Chef =>
          if y.id = c2.id then
            { y with status := ChefStatus.Idle, table := none, plate := none, timer := none }
          else y) hA
        have hAne : ¬ A.id = c2.id := fun h => hidne h.symm
        simpa [hAne] using h1
      · have h2 := List.mem_map_of_mem (fun q : Plate =>
          if q.id = pid2 then
            { q with table := c2.table, status := PlateStatus.Ready, temp := some cfg.PlateInitialTemperature }
          else q) hB
        have hBne : ¬ B.id = pid2 := by
          intro h
          apply hplne
          rw [heq2, h]
        simpa [hBne] using h2
    · exact ⟨hA, hB⟩
  · exact ⟨hA, hB⟩

lemma preparePlate_fold_frame (cfg : Config) (A : Chef) (B : Plate) :
    ∀ (l : List Chef) (v : World),
      (∀ c2 ∈ l, c2.id ≠ A.id) → (∀ c2 ∈ l, c2.plate ≠ some B.id) →
      A ∈ v.chefs → B ∈ v.plates →
      A ∈ (l.foldl (systems.preparePlateStep cfg) v).chefs ∧
        B ∈ (l.foldl (systems.preparePlateStep cfg) v).plates := by
  intro l
  induction l with
  | nil => intro v _ _ hA hB; exact ⟨hA, hB⟩
  | cons c2 t ih =>
    intro v hid hpl hA hB
    rw [List.foldl_cons]
    obtain ⟨hA2, hB2⟩ := preparePlateStep_frame cfg v c2 A B
      (hid c2 (List.mem_cons_self c2 t)) (hpl c2 (List.mem_cons_self c2 t)) hA hB
    exact ih _ (fun y hy => hid y (List.mem_cons_of_mem c2 hy))
      (fun y hy => hpl y (List.mem_cons_of_mem c2 hy)) hA2 hB2

lemma preparePlate_fires (cfg : Config) (w : World) (c : Chef) (pt : ProgressTracker)
    (pid : Nat) (p : Plate)
    (hnd : (w.chefs.map Chef.id).Nodup)
    (hc : c ∈ w.chefs) (htm : c.timer = some pt) (hfire : pt.expire < pt.cur)
    (hpl : c.plate = some pid) (hp : p ∈ w.plates) (hpid : p.id = pid)
    (hothers : ∀ c2 ∈ w.chefs, c2.id ≠ c.id → c2.plate ≠ some pid) :
    (∃ c' ∈ (systems.PreparePlate cfg w).chefs, c'.id = c.id ∧
      c'.status = ChefStatus.Idle ∧ c'.table = none ∧ c'.plate = none ∧
      c'.timer = none) ∧
    (∃ p' ∈ (systems.PreparePlate cfg w).plates, p'.id = pid ∧ p'.table = c.table ∧
      p'.status = PlateStatus.Ready ∧ p'.temp = some cfg.PlateInitialTemperature) := by
  have hcf : c ∈ w.chefs.filter (fun c => c.timer ≠ none ∧ c.plate ≠ none) :=
    List.mem_filter.mpr ⟨hc, by simp [htm, hpl]⟩
  obtain ⟨l1, l2, hsplit⟩ := List.append_of_mem hcf
  have hfnd : ((w.chefs.filter (fun c => c.timer ≠ none ∧ c.plate ≠ none)).map
      Chef.id).Nodup :=
    List.Nodup.sublist ((List.filter_sublist _).map Chef.id) hnd
  obtain ⟨hne1, hne2⟩ := ids_ne_of_split Chef.id hfnd hsplit
  have hsub : ∀ y ∈ w.chefs.filter (fun c => c.timer ≠ none ∧ c.plate ≠ none),
      y ∈ w.chefs := fun y hy => List.mem_of_mem_filter hy
  have hothers1 : ∀ y ∈ l1, y.plate ≠ some pid := by
    intro y hy
    exact hothers y (hsub y (hsplit ▸ List.mem_append_left _ hy)) (hne1 y hy)
  have hothers2 : ∀ y ∈ l2, y.plate ≠ some pid := by
    intro y hy
    exact hothers y (hsub y (hsplit ▸ List.mem_append_right _
      (List.mem_cons_of_mem c hy))) (hne2 y hy)
  have hrun : systems.PreparePlate cfg w =
      l2.foldl (systems.preparePlateStep cfg)
        (systems.preparePlateStep cfg (l1.foldl (systems.preparePlateStep cfg) w) c) := by
    unfold systems.PreparePlate
    rw [hsplit, List.foldl_append, List.foldl_cons]
  have hothers1' : ∀ y ∈ l1, y.plate ≠ some p.id := by
    rw [hpid]; exact hothers1
  have hothers2' : ∀ y ∈ l2, y.plate ≠ some p.id := by
    rw [hpid]; exact hothers2
  obtain ⟨hA1, hB1⟩ := preparePlate_fold_frame cfg c p l1 w hne1 hothers1' hc hp
  set v1 := l1.foldl (systems.preparePlateStep cfg) w with hv1
  have hstep : systems.preparePlateStep cfg v1 c = { v1 with
      chefs := v1.chefs.map (fun y =>
        if y.id = c.id then
          { y with status := ChefStatus.Idle, table := none, plate := none, timer := none }
        else y),
      plates := v1.plates.map (fun q =>
        if q.id = pid then
          { q with table := c.table, status := PlateStatus.Ready, temp := some cfg.PlateInitialTemperature }
        else q) } := by
    unfold systems.preparePlateStep
    rw [htm, hpl]
    simp only []
    rw [if_pos hfire]
  have hA2 : ({ c with status := ChefStatus.Idle, table := none, plate := none, timer := none } : Chef) ∈ (systems.preparePlateStep cfg v1 c).chefs := by
    rw [hstep]
    have h1 := List.mem_map_of_mem (fun y : Chef =>
      if y.id = c.id then
        { y with status := ChefStatus.Idle, table := none, plate := none, timer := none }
      else y) hA1
    simpa using h1
  have hB2 : ({ p with table := c.table, status := PlateStatus.Ready, temp := some cfg.PlateInitialTemperature } : Plate) ∈
      (systems.preparePlateStep cfg v1 c).plates := by
    rw [hstep]
    have h2 := List.mem_map_of_mem (fun q : Plate =>
      if q.id = pid then
        { q with table := c.table, status := PlateStatus.Ready, temp := some cfg.PlateInitialTemperature }
      else q) hB1
    simpa [hpid] using h2
  obtain ⟨hA3, hB3⟩ := preparePlate_fold_frame cfg
    ({ c with status := ChefStatus.Idle, table := none, plate := none, timer := none })
    ({ p with table := c.table, status := PlateStatus.Ready, temp := some cfg.PlateInitialTemperature })
    l2 (systems.preparePlateStep cfg v1 c) hne2
    (by intro y hy; simpa [hpid] using hothers2 y hy) hA2 hB2
  rw [hrun]
  constructor
  · exact ⟨_, hA3, rfl, rfl, rfl, rfl, rfl⟩
  · exact ⟨_, hB3, by simpa using hpid, rfl, rfl, rfl⟩

/-- C3 (amended): plate creation initializes the cooking chef's tracker
with expiry (number of guest children of its table) * PlatePreparationTime,
and once the tracker is strictly past its expiry the plate receives the
table reference, becomes Ready at PlateInitialTemperature, and the chef is
released to Idle with table, plate and tracker removed.  In Scenario A
(one table at distance 0, one chef, one waiter, party size 1, prep time
8 s), after 8.5 s of simulated time (17 half-second ticks) the chef has
transitioned Cooking to Idle and the plate became Ready at the PreparePlate
stage of the final tick — but because the idle waiter picks it up and the
table is at distance 0, the very same tick delivers it, so at the tick
boundary the plate is already InUse, not Ready (the spec's end-state
reading is refuted by C3_counterexample). -/
theorem C3_plate_lifecycle_and_scenario (cfg : Config) (w : World) :
    (∀ c ∈ w.chefs, c.status = ChefStatus.Cooking → c.plate = none →
      ∃ c' ∈ (systems.CreatePlate cfg w).chefs, c'.id = c.id ∧
        c'.timer = some ⟨0, (guestCount w c.table : ℚ) * cfg.PlatePreparationTime⟩ ∧
        c'.plate ≠ none ∧ c'.status = ChefStatus.Cooking) ∧
    (∀ (c : Chef) (pt : ProgressTracker) (pid : Nat) (p : Plate),
      (w.chefs.map Chef.id).Nodup → c ∈ w.chefs → c.timer = some pt →
      pt.expire < pt.cur → c.plate = some pid → p ∈ w.plates → p.id = pid →
      (∀ c2 ∈ w.chefs, c2.id ≠ c.id → c2.plate ≠ some pid) →
      (∃ c' ∈ (systems.PreparePlate cfg w).chefs, c'.id = c.id ∧
        c'.status = ChefStatus.Idle ∧ c'.table = none ∧ c'.plate = none ∧
        c'.timer = none) ∧
      (∃ p' ∈ (systems.PreparePlate cfg w).plates, p'.id = pid ∧ p'.table = c.table ∧
        p'.status = PlateStatus.Ready ∧ p'.temp = some cfg.PlateInitialTemperature)) ∧
    (chefStatusOf (runTicks cfgA (List.replicate 17 (1/2 : ℚ)) wA) 1 =
        some ChefStatus.Idle ∧
      plateStatusOf (tickThroughPrepare cfgA (1/2)
        (runTicks cfgA (List.replicate 16 (1/2 : ℚ)) wA)) 3 = some PlateStatus.Ready ∧
      plateStatusOf (runTicks cfgA (List.replicate 17 (1/2 : ℚ)) wA) 3 =
        some PlateStatus.InUse) := by
  refine ⟨?_, ?_, ?_, ?_, ?_⟩
  · intro c hc hcook hpl
    exact createPlate_inits cfg w c hc hcook hpl
  · intro c pt pid p hnd hc htm hfire hpl hp hpid hothers
    exact preparePlate_fires cfg w c pt pid p hnd hc htm hfire hpl hp hpid hothers
  · with_unfolding_all decide
  · with_unfolding_all decide
  · with_unfolding_all decide

/-- C3 counterexample: running Scenario A for 8.5 s of simulated time (the
first tick boundary more than 8 s past the start of cooking at half-second
resolution), the chef has indeed turned Idle, but the plate's status at the
tick boundary is InUse — it was Ready only transiently inside the tick —
so the claimed end state "the plate is Ready" does not hold. -/
theorem C3_counterexample :
    plateStatusOf (runTicks cfgA (List.replicate 17 (1/2 : ℚ)) wA) 3 =
        some PlateStatus.InUse ∧
      some PlateStatus.InUse ≠ some PlateStatus.Ready := by
  constructor
  · with_unfolding_all decide
  · with_unfolding_all decide

/-- Witness for C3 at the concrete world wC3: chef 1 gets a plate and an
8-second tracker for its party of one; chef 2, whose tracker is past
expiry, is released while plate 3 becomes Ready. -/
theorem C3_witness :
    (∃ c' ∈ (systems.CreatePlate defaultConfig wC3).chefs, c'.id = 1 ∧
      c'.timer = some ⟨0, (guestCount wC3 (some 0) : ℚ) *
        defaultConfig.PlatePreparationTime⟩ ∧
      c'.plate ≠ none ∧ c'.status = ChefStatus.Cooking) ∧
    (∃ c' ∈ (systems.PreparePlate defaultConfig wC3).chefs, c'.id = 2 ∧
      c'.status = ChefStatus.Idle ∧ c'.table = none ∧ c'.plate = none ∧
      c'.timer = none) ∧
    (∃ p' ∈ (systems.PreparePlate defaultConfig wC3).plates, p'.id = 3 ∧
      p'.table = some 0 ∧ p'.status = PlateStatus.Ready ∧
      p'.temp = some defaultConfig.PlateInitialTemperature) := by
  refine ⟨?_, ?_⟩
  · exact (C3_plate_lifecycle_and_scenario defaultConfig wC3).1
      { id := 1, status := ChefStatus.Cooking, table := some 0, plate := none, timer := none }
      (by with_unfolding_all decide) rfl rfl
  · exact (C3_plate_lifecycle_and_scenario defaultConfig wC3).2.1
      { id := 2, status := ChefStatus.Cooking, table := some 0, plate := some 3, timer := some ⟨9, 8⟩ }
      ⟨9, 8⟩ 3
      { id := 3, status := PlateStatus.Preparing, table := none, waiter := none, temp := none }
      (by with_unfolding_all decide) (by with_unfolding_all decide) rfl
      (by norm_num) rfl (by with_unfolding_all decide) rfl
      (by with_unfolding_all decide)

/-! ### Claim C10 (continued): the delivery step, for any walking waiter -/

/-- One systems::WaiterToTable step keeps every table id and plate id,
keeps every waiter entry whose id differs from the stepped waiter, and
introduces no waiter entry beyond those (new entries carry the stepped
waiter's id). -/
lemma waiterToTableStep_ids (cfg : Config) (dt : ℚ) (v : World) (z : Waiter) :
    (systems.waiterToTableStep cfg dt v z).tables.map Table.id = v.tables.map Table.id ∧
    (systems.waiterToTableStep cfg dt v z).plates.map Plate.id = v.plates.map Plate.id ∧
    (∀ y ∈ v.waiters, y.id ≠ z.id → y ∈ (systems.waiterToTableStep cfg dt v z).waiters) ∧
    (∀ y ∈ (systems.waiterToTableStep cfg dt v z).waiters, y.id = z.id ∨ y ∈ v.waiters) := by
  refine ⟨?_, ?_, ?_, ?_⟩
  · unfold systems.waiterToTableStep
    repeat' split
    all_goals first
    | rfl
    | (rw [List.map_map]
       apply List.map_congr_left
       intro t _
       try simp only [Function.comp_apply]
       try simp only []
       repeat' split
       all_goals rfl)
  · unfold systems.waiterToTableStep
    repeat' split
    all_goals first
    | rfl
    | (rw [List.map_map]
       apply List.map_congr_left
       intro q _
       try simp only [Function.comp_apply]
       try simp only []
       repeat' split
       all_goals rfl)
  · intro y hy hne
    unfold systems.waiterToTableStep
    repeat' split
    all_goals try exact hy
    all_goals exact List.mem_map.mpr ⟨y, hy, by rw [if_neg hne]⟩
  · intro y hy
    unfold systems.waiterToTableStep at hy
    repeat' split at hy
    all_goals try exact Or.inr hy
    all_goals
      obtain ⟨y0, hy0, rfl⟩ := List.mem_map.mp hy
    all_goals
      by_cases h : y0.id = z.id
    all_goals try (rw [if_neg h]; exact Or.inr hy0)
    all_goals rw [if_pos h]
    all_goals exact Or.inl h
lemma waiterToTableStep_fires (cfg : Config) (dt : ℚ) (v : World) (x : Waiter)
    (hxv : x ∈ v.waiters) (pt : ProgressTracker) (htm : x.timer = some pt)
    (hexp : pt.expire ≤ pt.cur) (tid pid : Nat)
    (hta : x.table = some tid) (hpl : x.plate = some pid)
    (ht : ∃ t ∈ v.tables, t.id = tid) (hp : ∃ p ∈ v.plates, p.id = pid) :
    ∃ x' ∈ (systems.waiterToTableStep cfg dt v x).waiters, x'.id = x.id ∧
      x'.status = WaiterStatus.Idle ∧ x'.dist = x.dist + dt * cfg.WaiterSpeed ∧
      x'.table = none ∧ x'.plate = none ∧ x'.timer = x.timer := by
  unfold systems.waiterToTableStep
  rw [htm]
  simp only []
  rw [if_pos hexp, hta, hpl]
  simp only []
  cases hgt : (v.tables.filter (fun t => t.id = tid)).getLast? with
  | none =>
    exfalso
    rw [List.getLast?_eq_none_iff] at hgt
    obtain ⟨t2, ht2, ht2id⟩ := ht
    have hmt : t2 ∈ v.tables.filter (fun t => t.id = tid) :=
      List.mem_filter.mpr ⟨ht2, by simp [ht2id]⟩
    rw [hgt] at hmt
    exact List.not_mem_nil t2 hmt
  | some tt =>
    cases hgp : (v.plates.filter (fun p => p.id = pid)).getLast? with
    | none =>
      exfalso
      rw [List.getLast?_eq_none_iff] at hgp
      obtain ⟨p2, hp2, hp2id⟩ := hp
      have hmp : p2 ∈ v.plates.filter (fun p => p.id = pid) :=
        List.mem_filter.mpr ⟨hp2, by simp [hp2id]⟩
      rw [hgp] at hmp
      exact List.not_mem_nil p2 hmp
    | some pp =>
      simp only []
      refine ⟨_, List.mem_map_of_mem _ hxv, ?_⟩
      simp
      exact htm

lemma waiterToTable_delivery (cfg : Config) (dt : ℚ) (w : World) (x : Waiter)
    (hnd : (w.waiters.map Waiter.id).Nodup)
    (hx : x ∈ w.waiters) (hst : x.status = WaiterStatus.WalkingToTable)
    (pt : ProgressTracker) (htm : x.timer = some pt) (hexp : pt.expire ≤ pt.cur)
    (tid pid : Nat) (hta : x.table = some tid) (hpl : x.plate = some pid)
    (t1 : Table) (ht1 : t1 ∈ w.tables) (ht1id : t1.id = tid)
    (p1 : Plate) (hp1 : p1 ∈ w.plates) (hp1id : p1.id = pid) :
    ∃ x' ∈ (systems.WaiterToTable cfg dt w).waiters, x'.id = x.id ∧
      x'.status = WaiterStatus.Idle ∧ x'.dist = x.dist + dt * cfg.WaiterSpeed ∧
      x'.table = none ∧ x'.plate = none ∧ x'.timer = x.timer := by
  have hxL : x ∈ w.waiters.filter
      (fun y => y.status = WaiterStatus.WalkingToTable ∧ y.timer ≠ none) :=
    List.mem_filter.mpr ⟨hx, by simp [hst, htm]⟩
  have hndL : ((w.waiters.filter
      (fun y => y.status = WaiterStatus.WalkingToTable ∧ y.timer ≠ none)).map Waiter.id).Nodup :=
    List.Nodup.sublist (List.Sublist.map Waiter.id (List.filter_sublist _)) hnd
  obtain ⟨l1, l2, hL⟩ := List.append_of_mem hxL
  obtain ⟨hne1, hne2⟩ := ids_ne_of_split Waiter.id hndL hL
  unfold systems.WaiterToTable
  rw [hL, List.foldl_append, List.foldl_cons]
  have hP : (l1.foldl (systems.waiterToTableStep cfg dt) w).tables.map Table.id
        = w.tables.map Table.id ∧
      (l1.foldl (systems.waiterToTableStep cfg dt) w).plates.map Plate.id
        = w.plates.map Plate.id ∧
      x ∈ (l1.foldl (systems.waiterToTableStep cfg dt) w).waiters := by
    refine foldl_preserve (fun v => v.tables.map Table.id = w.tables.map Table.id ∧
        v.plates.map Plate.id = w.plates.map Plate.id ∧ x ∈ v.waiters)
      (systems.waiterToTableStep cfg dt) l1 w ?_ ⟨rfl, rfl, hx⟩
    intro v z hz hv
    obtain ⟨hT, hQ, hxm⟩ := hv
    obtain ⟨hT2, hQ2, hmem2, _⟩ := waiterToTableStep_ids cfg dt v z
    exact ⟨hT2.trans hT, hQ2.trans hQ, hmem2 x hxm (fun h => hne1 z hz h.symm)⟩
  obtain ⟨hT1, hQ1, hx1⟩ := hP
  refine foldl_preserve (fun v => ∃ x' ∈ v.waiters, x'.id = x.id ∧
      x'.status = WaiterStatus.Idle ∧ x'.dist = x.dist + dt * cfg.WaiterSpeed ∧
      x'.table = none ∧ x'.plate = none ∧ x'.timer = x.timer)
    (systems.waiterToTableStep cfg dt) l2 _ ?_ ?_
  · intro v z hz hv
    obtain ⟨x2, hx2, hid, hrest⟩ := hv
    exact ⟨x2, (waiterToTableStep_ids cfg dt v z).2.2.1 x2 hx2
      (fun h => hne2 z hz (h.symm.trans hid)), hid, hrest⟩
  · have ht2 : ∃ t ∈ (l1.foldl (systems.waiterToTableStep cfg dt) w).tables, t.id = tid := by
      have hmem : tid ∈ w.tables.map Table.id := List.mem_map.mpr ⟨t1, ht1, ht1id⟩
      rw [← hT1] at hmem
      obtain ⟨t2, ht2m, ht2id⟩ := List.mem_map.mp hmem
      exact ⟨t2, ht2m, ht2id⟩
    have hp2 : ∃ p ∈ (l1.foldl (systems.waiterToTableStep cfg dt) w).plates, p.id = pid := by
      have hmem : pid ∈ w.plates.map Plate.id := List.mem_map.mpr ⟨p1, hp1, hp1id⟩
      rw [← hQ1] at hmem
      obtain ⟨p2, hp2m, hp2id⟩ := List.mem_map.mp hmem
      exact ⟨p2, hp2m, hp2id⟩
    exact waiterToTableStep_fires cfg dt _ x hx1 pt htm hexp tid pid hta hpl ht2 hp2

/-- C10: a waiter that delivers its plate is released to Idle with its
distance-from-kitchen left at the value accumulated while walking (the
source never resets it to zero and keeps even the expired tracker), so its
next walk to the kitchen starts from that residual distance -- whatever
other waiters are concurrently walking to their own tables in the same
pass; and in every reachable state (nonnegative waiter speed and tick
deltas) every waiter's distance-from-kitchen is nonnegative: initialized
to 0, clamped at 0 by the kitchen-bound decrement, and otherwise only
incremented. -/
theorem C10_waiter_distance_residual (cfg : Config) (hsp : 0 ≤ cfg.WaiterSpeed) :
    (∀ w : World, Reachable cfg w → DistInv w) ∧
    (∀ (dt : ℚ) (w : World) (x : Waiter) (pt : ProgressTracker) (tid pid : Nat)
        (t1 : Table) (p1 : Plate),
      (w.waiters.map Waiter.id).Nodup → x ∈ w.waiters →
      x.status = WaiterStatus.WalkingToTable →
      x.timer = some pt → pt.expire ≤ pt.cur → x.table = some tid →
      x.plate = some pid → t1 ∈ w.tables → t1.id = tid → p1 ∈ w.plates →
      p1.id = pid →
      ∃ x' ∈ (systems.WaiterToTable cfg dt w).waiters, x'.id = x.id ∧
        x'.status = WaiterStatus.Idle ∧ x'.dist = x.dist + dt * cfg.WaiterSpeed ∧
        x'.table = none ∧ x'.plate = none ∧ x'.timer = x.timer) := by
  constructor
  · intro w hw
    induction hw with
    | start rng => exact dist_init cfg rng
    | step dt _ hdt ih => exact dist_tick cfg dt hsp hdt _ ih
  · intro dt w x pt tid pid t1 p1 hnd hx hst htm hexp hta hpl ht1 ht1id hp1 hp1id
    exact waiterToTable_delivery cfg dt w x hnd hx hst pt htm hexp tid pid hta hpl
      t1 ht1 ht1id p1 hp1 hp1id

/-- Witness for C10: the start-up distances are nonnegative, and waiter 1
of wC10 delivers its plate with residual distance 7/2 + 1 * 1 while waiter
5, also WalkingToTable with an expired tracker, delivers at another table
in the same pass. -/
theorem C10_witness :
    DistInv (init defaultConfig []) ∧
    (∃ x' ∈ (systems.WaiterToTable defaultConfig 1 wC10).waiters, x'.id = 1 ∧
      x'.status = WaiterStatus.Idle ∧ x'.dist = 7/2 + 1 * 1 ∧
      x'.table = none ∧ x'.plate = none ∧
      x'.timer = some (⟨20, 20⟩ : ProgressTracker)) :=
  ⟨(C10_waiter_distance_residual defaultConfig (by norm_num [defaultConfig])).1
      (init defaultConfig []) (Reachable.start []),
   (C10_waiter_distance_residual defaultConfig (by norm_num [defaultConfig])).2
      1 wC10 ⟨1, WaiterStatus.WalkingToTable, 7/2, some 0, some 2, some ⟨20, 20⟩⟩
      ⟨20, 20⟩ 0 2
      ⟨0, TableStatus.Waiting, (0, 20), some 1, none, none⟩
      ⟨2, PlateStatus.Ready, some 0, some 1, some 60⟩
      (by with_unfolding_all decide) (by with_unfolding_all decide) rfl
      rfl (by with_unfolding_all decide) rfl rfl
      (by with_unfolding_all decide) rfl (by with_unfolding_all decide) rfl⟩

end KitchenExplorer
